import Mathlib

/-!
# AircraftDB ingestion-and-store subsystem: a shallow embedding

This file embeds the core of the `aircraftdb` package
(`src/aircraftdb/database.py` and `src/aircraftdb/ingest.py`) in Lean and
proves / refutes the frozen claims about it.

Modelling conventions:
  * Python/SQLite scalar values are `PyVal` (None, int, float, str).  Floats
    are modelled as rationals parsed from decimal literals; the special
    literals `inf`/`nan` and underscore digit separators accepted by Python
    are not modelled.
  * A Python dict is an insertion-ordered association list; `dset` is dict
    assignment (replace in place or append), matching dict semantics.
  * A SQLite table is a `List (TRow α)`: rows in insertion order, each with
    its primary-key value, its non-key columns `α`, and `created_at` /
    `updated_at` timestamps.  `CURRENT_TIMESTAMP` is an abstract `Nat`
    passed in by the caller (one per operation batch).
  * `INSERT .. ON CONFLICT(pk) DO UPDATE` is `upsertRow`: it rewrites the
    (unique) row with an equal key in place, keeping `created_at`, or
    appends a fresh row.
  * File I/O is abstracted: a file on disk is its decoded content, and a
    read that would raise is an `Except.error` carrying the message.
    Store writes can only fail through the abstract failure oracle
    `sf : PRec → Bool` which models the `except` branches around
    individual upserts in the ingest loops.
-/

set_option autoImplicit false

namespace AircraftDB

/-- A Python / SQLite scalar value as produced by the ingest value parser. -/
inductive PyVal where
  | vNone : PyVal
  | vInt (n : Int) : PyVal
  | vFloat (q : Rat) : PyVal
  | vStr (s : String) : PyVal
deriving DecidableEq

/-- Python truthiness (`bool(v)`) for the values above. -/
def truthy : PyVal → Bool
  | .vNone => false
  | .vInt n => !(n == 0)
  | .vFloat q => !(q == 0)
  | .vStr s => !(s == "")

/-- `str(v)` for the values above (float formatting abstracted as `Rat` repr). -/
def pyStr : PyVal → String
  | .vNone => "None"
  | .vInt n => toString n
  | .vFloat q => toString q
  | .vStr s => s

/-- Digits to the natural number they denote (most significant first). -/
def digitsToNat (cs : List Char) : Nat :=
  cs.foldl (fun n c => n * 10 + (c.toNat - 48)) 0

/-- Every character is an ASCII digit. -/
def allDigits (cs : List Char) : Bool :=
  cs.all (fun c => c.isDigit)

/-- Split a character list at the first `e`/`E` (exponent marker). -/
def splitAtE (cs : List Char) : List Char × Option (List Char) :=
  match cs with
  | [] => ([], none)
  | c :: rest =>
    if c == 'e' || c == 'E' then ([], some rest)
    else
      let p := splitAtE rest
      (c :: p.1, p.2)

/-- Strip one optional leading sign; `true` means negative. -/
def splitSign (cs : List Char) : Bool × List Char :=
  match cs with
  | '-' :: rest => (true, rest)
  | '+' :: rest => (false, rest)
  | _ => (false, cs)

/-- `p` is a prefix of `s` (character lists; structurally recursive so
that concrete instances evaluate inside the kernel). -/
def isPrefixL : List Char → List Char → Bool
  | [], _ => true
  | _ :: _, [] => false
  | a :: as, b :: bs => (a == b) && isPrefixL as bs

/-- Python `s.strip()`: drop leading and trailing whitespace. -/
def pyStrip (s : String) : String :=
  String.mk
    (((s.toList.dropWhile Char.isWhitespace).reverse.dropWhile
      Char.isWhitespace).reverse)

/-- Python `s.upper()` (ASCII). -/
def pyUpper (s : String) : String := String.mk (s.toList.map Char.toUpper)

/-- Python `s.lower()` (ASCII). -/
def pyLower (s : String) : String := String.mk (s.toList.map Char.toLower)

/-- Python `s.startswith(p)`. -/
def pyStartsWith (s p : String) : Bool := isPrefixL p.toList s.toList

/-- `pat` occurs as a contiguous sublist of `s`. -/
def containsSub (pat : List Char) : List Char → Bool
  | [] => pat.isEmpty
  | c :: rest => isPrefixL pat (c :: rest) || containsSub pat rest

/-- Parse an optional sign followed by at least one digit. -/
def parseSignedInt (cs : List Char) : Option Int :=
  let p := splitSign cs
  if p.2.isEmpty || !(allDigits p.2) then none
  else some (if p.1 then -(digitsToNat p.2 : Int) else (digitsToNat p.2 : Int))

/-- Python `int(s)` on an already stripped string: optional sign, digits. -/
def parseIntStr (s : String) : Option Int :=
  parseSignedInt s.toList

/-- Split a character list at the first `.` (decimal point). -/
def splitAtDot (cs : List Char) : List Char × Option (List Char) :=
  match cs with
  | [] => ([], none)
  | c :: rest =>
    if c == '.' then ([], some rest)
    else
      let p := splitAtDot rest
      (c :: p.1, p.2)

/-- Parse an exponent part (optional sign, then at least one digit). -/
def parseExp (cs : List Char) : Option Int := parseSignedInt cs

/-- Python `float(s)` on a stripped string, restricted to decimal literals
with optional fraction and exponent; the value is returned exactly as a
rational. -/
def parseFloatStr (s : String) : Option Rat :=
  let p := splitSign s.toList
  let me := splitAtE p.2
  let contOf : List Char → Nat → Option Rat := fun digs scale =>
    match me.2 with
    | none => some ((digitsToNat digs : Rat) / (10 : Rat) ^ scale)
    | some ecs =>
      match parseExp ecs with
      | none => none
      | some e =>
        let e' : Int := e - (scale : Int)
        if 0 ≤ e' then some ((digitsToNat digs : Rat) * (10 : Rat) ^ e'.toNat)
        else some ((digitsToNat digs : Rat) / (10 : Rat) ^ (-e').toNat)
  let q? : Option Rat :=
    match splitAtDot me.1 with
    | (ip, none) =>
      if ip.isEmpty || !(allDigits ip) then none else contOf ip 0
    | (ip, some fp) =>
      if (ip.isEmpty && fp.isEmpty) || !(allDigits ip) || !(allDigits fp) then none
      else contOf (ip ++ fp) fp.length
  q?.map (fun q => if p.1 then -q else q)

/-- `parse_value` from `ingest.py`: empty/whitespace-only becomes absent,
else try integer, then float, else the trimmed text. -/
def parse_value (value : String) : PyVal :=
  if pyStrip value == "" then .vNone
  else
    let v := pyStrip value
    match parseIntStr v with
    | some n => .vInt n
    | none =>
      match parseFloatStr v with
      | some q => .vFloat q
      | none => .vStr v

/-- Dict assignment `d[k] = v` on an insertion-ordered association list:
replaces the binding in place if the key exists, else appends. -/
def dset {α : Type} (d : List (String × α)) (k : String) (v : α) : List (String × α) :=
  match d with
  | [] => [(k, v)]
  | p :: rest => if p.1 == k then (k, v) :: rest else p :: dset rest k v

/-- Dict lookup returning the bound value. -/
def dfind {α : Type} (d : List (String × α)) (k : String) : Option α :=
  (d.find? (fun p => p.1 == k)).map (fun p => p.2)

/-- Python `data.get(k)`: `None` when the key is absent. -/
def dget (d : List (String × PyVal)) (k : String) : PyVal :=
  match dfind d k with
  | some v => v
  | none => .vNone

/-- One record yielded by `parse_faa_csv`: the normalized mapped fields
(the dict built row by row) plus the `_raw` dict of original columns.
`raw_json` columns store this whole record (JSON serialization is
abstracted as the record itself). -/
structure PRec where
  fields : List (String × PyVal)
  raw : List (String × String)
deriving DecidableEq

/-- `rec.get k` on the normalized fields. -/
def PRec.get (r : PRec) (k : String) : PyVal := dget r.fields k

/-- A decoded delimited text file: the header line and the remaining rows,
each a list of cell texts.  (Encoding detection and the csv reader are
abstracted: a file that fails to decode or parse is an `Except.error` at
the directory level.) -/
structure CsvFile where
  header : List String
  rows : List (List String)
deriving DecidableEq

/-- The FAA `ACFTREF` column mapping from `ingest.py`. -/
def ACFTREF_COLUMNS : List (String × String) :=
  [("CODE", "code"), ("MFR", "manufacturer"), ("MODEL", "model"),
   ("TYPE-ACFT", "type_aircraft"), ("TYPE-ENG", "type_engine"),
   ("AC-CAT", "aircraft_category"), ("BUILD-CERT-IND", "builder_cert_ind"),
   ("NO-ENG", "num_engines"), ("NO-SEATS", "num_seats"),
   ("AC-WEIGHT", "weight_class"), ("SPEED", "speed"),
   ("TC-DATA-SHEET", "tc_data_sheet"), ("TC-DATA-HOLDER", "tc_data_holder")]

/-- The FAA `ENGINE` column mapping from `ingest.py`. -/
def ENGINE_COLUMNS : List (String × String) :=
  [("CODE", "code"), ("MFR", "manufacturer"), ("MODEL", "model"),
   ("TYPE", "type"), ("HORSEPOWER", "horsepower"), ("THRUST", "thrust")]

/-- The FAA `MASTER` column mapping from `ingest.py`. -/
def MASTER_COLUMNS : List (String × String) :=
  [("N-NUMBER", "n_number"), ("SERIAL NUMBER", "serial_number"),
   ("MFR MDL CODE", "mfr_mdl_code"), ("ENG MFR MDL", "eng_mfr_mdl"),
   ("YEAR MFR", "year_mfr"), ("TYPE REGISTRANT", "type_registrant"),
   ("NAME", "registrant_name"), ("STREET", "street"), ("STREET2", "street2"),
   ("CITY", "city"), ("STATE", "state"), ("ZIP CODE", "zip_code"),
   ("REGION", "region"), ("COUNTY", "county"), ("COUNTRY", "country"),
   ("LAST ACTION DATE", "last_action_date"),
   ("CERT ISSUE DATE", "cert_issue_date"), ("CERTIFICATION", "certification"),
   ("TYPE AIRCRAFT", "type_aircraft"), ("TYPE ENGINE", "type_engine"),
   ("STATUS CODE", "status_code"), ("MODE S CODE", "mode_s_code"),
   ("MODE S CODE HEX", "mode_s_code_hex"), ("FRACT OWNER", "fract_owner"),
   ("AIR WORTH DATE", "air_worth_date"),
   ("EXPIRATION DATE", "expiration_date"), ("UNIQUE ID", "unique_id"),
   ("KIT MFR", "kit_mfr"), ("KIT MODEL", "kit_model")]

/-- Resolve header positions through a column mapping:
`col_indices` from `parse_faa_csv`. -/
def colIndices (headerC : List String) (mapping : List (String × String)) :
    List (Nat × String) :=
  headerC.enum.filterMap (fun p => (dfind mapping p.2).map (fun n => (p.1, n)))

/-- A row is blank when it is empty or all cells strip to the empty string
(`if not row or all(not cell.strip() for cell in row)`). -/
def blankRow (row : List String) : Bool :=
  row.isEmpty || row.all (fun c => pyStrip c == "")

/-- Build the normalized field dict of one row: every cell whose position is
mapped is parsed and assigned under its normalized name. -/
def rowFields (ci : List (Nat × String)) (row : List String) :
    List (String × PyVal) :=
  row.enum.foldl
    (fun d p =>
      match dfindNat ci p.1 with
      | some name => dset d name (parse_value p.2)
      | none => d) []
where
  /-- Lookup by position in the resolved column-index list. -/
  dfindNat (ci : List (Nat × String)) (i : Nat) : Option String :=
    (ci.find? (fun q => q.1 == i)).map (fun q => q.2)

/-- Build the `_raw` dict of one row: every (stripped) header name bound to
the stripped cell text, the empty string when the row is shorter than the
header (`{header[i]: row[i].strip() if i < len(row) else '' ...}`). -/
def rowRaw (headerC : List String) (row : List String) :
    List (String × String) :=
  headerC.enum.foldl (fun d p => dset d p.2 (pyStrip (row.getD p.1 ""))) []

/-- Parse one non-blank data row into a record. -/
def parseRow (headerC : List String) (ci : List (Nat × String))
    (row : List String) : PRec :=
  { fields := rowFields ci row, raw := rowRaw headerC row }

/-- `parse_faa_csv` from `ingest.py`: strip the header, resolve the column
mapping once, skip blank rows, and stream each remaining row as a record
(the generator is modelled as the list of records it yields). -/
def parse_faa_csv (f : CsvFile) (mapping : List (String × String)) :
    List PRec :=
  let headerC := f.header.map (fun h => pyStrip h)
  let ci := colIndices headerC mapping
  (f.rows.filter (fun r => !(blankRow r))).map (parseRow headerC ci)

/-- Non-key columns of the `aircraft_models` table (FAA ACFTREF), as bound
by `upsert_aircraft_model` in `database.py`. -/
structure ModelData where
  manufacturer : PyVal
  model : PyVal
  type_aircraft : PyVal
  type_engine : PyVal
  aircraft_category : PyVal
  builder_cert_ind : PyVal
  num_engines : PyVal
  num_seats : PyVal
  weight_class : PyVal
  speed : PyVal
  tc_data_sheet : PyVal
  tc_data_holder : PyVal
  raw_json : PRec
deriving DecidableEq

/-- Field extraction of `upsert_aircraft_model`: each column is
`data.get(name)` and `raw_json` is the serialized record. -/
def modelDataOf (d : PRec) : ModelData :=
  { manufacturer := d.get "manufacturer"
    model := d.get "model"
    type_aircraft := d.get "type_aircraft"
    type_engine := d.get "type_engine"
    aircraft_category := d.get "aircraft_category"
    builder_cert_ind := d.get "builder_cert_ind"
    num_engines := d.get "num_engines"
    num_seats := d.get "num_seats"
    weight_class := d.get "weight_class"
    speed := d.get "speed"
    tc_data_sheet := d.get "tc_data_sheet"
    tc_data_holder := d.get "tc_data_holder"
    raw_json := d }

/-- Non-key columns of the `engines` table (FAA ENGINE). -/
structure EngineData where
  manufacturer : PyVal
  model : PyVal
  type : PyVal
  horsepower : PyVal
  thrust : PyVal
  raw_json : PRec
deriving DecidableEq

/-- Field extraction of `upsert_engine`. -/
def engineDataOf (d : PRec) : EngineData :=
  { manufacturer := d.get "manufacturer"
    model := d.get "model"
    type := d.get "type"
    horsepower := d.get "horsepower"
    thrust := d.get "thrust"
    raw_json := d }

/-- Non-key columns of the `aircraft_registry` table (FAA MASTER). -/
structure RegistryData where
  serial_number : PyVal
  mfr_mdl_code : PyVal
  eng_mfr_mdl : PyVal
  year_mfr : PyVal
  type_registrant : PyVal
  registrant_name : PyVal
  street : PyVal
  street2 : PyVal
  city : PyVal
  state : PyVal
  zip_code : PyVal
  region : PyVal
  county : PyVal
  country : PyVal
  last_action_date : PyVal
  cert_issue_date : PyVal
  certification : PyVal
  type_aircraft : PyVal
  type_engine : PyVal
  status_code : PyVal
  mode_s_code : PyVal
  mode_s_code_hex : PyVal
  fract_owner : PyVal
  air_worth_date : PyVal
  expiration_date : PyVal
  unique_id : PyVal
  kit_mfr : PyVal
  kit_model : PyVal
  raw_json : PRec
deriving DecidableEq

/-- Field extraction of `upsert_aircraft_registry`. -/
def registryDataOf (d : PRec) : RegistryData :=
  { serial_number := d.get "serial_number"
    mfr_mdl_code := d.get "mfr_mdl_code"
    eng_mfr_mdl := d.get "eng_mfr_mdl"
    year_mfr := d.get "year_mfr"
    type_registrant := d.get "type_registrant"
    registrant_name := d.get "registrant_name"
    street := d.get "street"
    street2 := d.get "street2"
    city := d.get "city"
    state := d.get "state"
    zip_code := d.get "zip_code"
    region := d.get "region"
    county := d.get "county"
    country := d.get "country"
    last_action_date := d.get "last_action_date"
    cert_issue_date := d.get "cert_issue_date"
    certification := d.get "certification"
    type_aircraft := d.get "type_aircraft"
    type_engine := d.get "type_engine"
    status_code := d.get "status_code"
    mode_s_code := d.get "mode_s_code"
    mode_s_code_hex := d.get "mode_s_code_hex"
    fract_owner := d.get "fract_owner"
    air_worth_date := d.get "air_worth_date"
    expiration_date := d.get "expiration_date"
    unique_id := d.get "unique_id"
    kit_mfr := d.get "kit_mfr"
    kit_model := d.get "kit_model"
    raw_json := d }

/-- A row of a keyed table: primary-key value, non-key columns, and the two
timestamp columns (`created_at DEFAULT CURRENT_TIMESTAMP`, `updated_at`). -/
structure TRow (α : Type) where
  key : PyVal
  data : α
  created_at : Nat
  updated_at : Nat
deriving DecidableEq

/-- `INSERT .. ON CONFLICT(pk) DO UPDATE SET <all non-key columns>,
updated_at = CURRENT_TIMESTAMP`: rewrite the row with this key in place
(keeping `created_at`), or append a fresh row with both timestamps `t`. -/
def upsertRow {α : Type} (t : Nat) (k : PyVal) (d : α) :
    List (TRow α) → List (TRow α)
  | [] => [⟨k, d, t, t⟩]
  | r :: rs =>
    if r.key = k then ⟨k, d, r.created_at, t⟩ :: rs
    else r :: upsertRow t k d rs

/-- The serialized payload of a `custom_data` row, by producing parser:
spreadsheet cell dicts, structured items (kept abstract as their serialized
text), or generic delimited-text dicts. -/
inductive CustomPayload where
  | cells (l : List (String × PyVal)) : CustomPayload
  | js (s : String) : CustomPayload
  | text (l : List (String × String)) : CustomPayload
deriving DecidableEq

/-- One row of the append-only `custom_data` table. -/
structure CustomRow where
  source_file : String
  table_name : String
  data_json : CustomPayload
deriving DecidableEq

/-- The whole store: the five keyed tables of the schema plus
`custom_data`.  `dealers` and `aircraft_deregistered` are declared by the
schema but no operation in the source writes them, so their rows are
abstract. -/
structure DB where
  aircraft_models : List (TRow ModelData)
  engines : List (TRow EngineData)
  aircraft_registry : List (TRow RegistryData)
  dealers : List Unit
  aircraft_deregistered : List Unit
  custom_data : List CustomRow
deriving DecidableEq

/-- A store with no rows (the state right after `_init_schema`). -/
def emptyDB : DB :=
  { aircraft_models := [], engines := [], aircraft_registry := []
    dealers := [], aircraft_deregistered := [], custom_data := [] }

/-- `upsert_aircraft_model` from `database.py`. -/
def upsert_aircraft_model (t : Nat) (data : PRec) (db : DB) : DB :=
  { db with aircraft_models :=
      upsertRow t (data.get "code") (modelDataOf data) db.aircraft_models }

/-- `upsert_engine` from `database.py`. -/
def upsert_engine (t : Nat) (data : PRec) (db : DB) : DB :=
  { db with engines :=
      upsertRow t (data.get "code") (engineDataOf data) db.engines }

/-- `upsert_aircraft_registry` from `database.py`.  Note: the key is stored
exactly as extracted from the record; no case normalization happens here. -/
def upsert_aircraft_registry (t : Nat) (data : PRec) (db : DB) : DB :=
  { db with aircraft_registry :=
      upsertRow t (data.get "n_number") (registryDataOf data) db.aircraft_registry }

/-- SQL `=` between two stored values: `NULL` compares equal to nothing. -/
def sqlEq (a b : PyVal) : Bool :=
  !(a == .vNone) && !(b == .vNone) && a == b

/-- `get_aircraft_by_n_number`: the query argument (and only it) is
uppercased before the comparison. -/
def get_aircraft_by_n_number (db : DB) (n_number : String) :
    Option (TRow RegistryData) :=
  db.aircraft_registry.find? (fun r => sqlEq r.key (.vStr (pyUpper n_number)))

/-- `get_aircraft_by_mode_s_hex`: lookup on the indexed
`mode_s_code_hex` column, query argument uppercased. -/
def get_aircraft_by_mode_s_hex (db : DB) (mode_s_hex : String) :
    Option (TRow RegistryData) :=
  db.aircraft_registry.find?
    (fun r => sqlEq r.data.mode_s_code_hex (.vStr (pyUpper mode_s_hex)))

/-- SQL `value >= n` for an integer parameter: `NULL` yields no match,
numbers compare numerically, text sorts after every number in SQLite. -/
def sqlGeInt (v : PyVal) (n : Int) : Bool :=
  match v with
  | .vNone => false
  | .vInt m => n ≤ m
  | .vFloat q => (n : Rat) ≤ q
  | .vStr _ => true

/-- SQL `value <= n` for an integer parameter (text sorts after numbers). -/
def sqlLeInt (v : PyVal) (n : Int) : Bool :=
  match v with
  | .vNone => false
  | .vInt m => m ≤ n
  | .vFloat q => q ≤ (n : Rat)
  | .vStr _ => false

/-- `pat` occurs as a substring of `s`. -/
def strContains (s pat : String) : Bool :=
  containsSub pat.toList s.toList

/-- SQL `column LIKE '%pat%'`: `NULL` never matches; otherwise a
case-insensitive substring test on the value's text form. -/
def likeMatch (pat : String) (v : PyVal) : Bool :=
  match v with
  | .vNone => false
  | v => strContains (pyUpper (pyStr v)) (pyUpper pat)

/-- Python truthiness of an `Optional[str]` argument (`if name:`). -/
def strFilterActive : Option String → Bool
  | none => false
  | some s => !(s == "")

/-- Python truthiness of an `Optional[int]` argument (`if year_from:`). -/
def intFilterActive : Option Int → Bool
  | none => false
  | some n => !(n == 0)

/-- The `WHERE` predicate built by `search_aircraft_registry`: one
conjunct per filter that passes its activation test.  Text filters and
`year_from`/`year_to` are tested for truthiness; `type_aircraft` is tested
against `None`. -/
def regPred (registrant_name city state : Option String)
    (year_from year_to type_aircraft : Option Int)
    (r : TRow RegistryData) : Bool :=
  (!(strFilterActive registrant_name) ||
    likeMatch (pyUpper (registrant_name.getD "")) r.data.registrant_name) &&
  (!(strFilterActive city) || likeMatch (pyUpper (city.getD "")) r.data.city) &&
  (!(strFilterActive state) ||
    sqlEq r.data.state (.vStr (pyUpper (state.getD "")))) &&
  (!(intFilterActive year_from) ||
    sqlGeInt r.data.year_mfr (year_from.getD 0)) &&
  (!(intFilterActive year_to) || sqlLeInt r.data.year_mfr (year_to.getD 0)) &&
  (match type_aircraft with
   | none => true
   | some n => sqlEq r.data.type_aircraft (.vInt n))

set_option linter.unusedVariables false in
/-- `search_aircraft_registry` from `database.py`.  The `manufacturer`
parameter is accepted but never used by the source, which is mirrored
here. -/
def search_aircraft_registry (db : DB)
    (registrant_name city state manufacturer : Option String)
    (year_from year_to type_aircraft : Option Int) (limit : Nat) :
    List (TRow RegistryData) :=
  ((db.aircraft_registry.filter
      (regPred registrant_name city state year_from year_to
        type_aircraft)).take limit)

/-- The `WHERE` predicate built by `search_aircraft_models`: text filters
tested for truthiness, `type_aircraft` and `num_engines` tested against
`None`. -/
def modelPred (manufacturer model : Option String)
    (type_aircraft num_engines : Option Int) (r : TRow ModelData) : Bool :=
  (!(strFilterActive manufacturer) ||
    likeMatch (manufacturer.getD "") r.data.manufacturer) &&
  (!(strFilterActive model) || likeMatch (model.getD "") r.data.model) &&
  (match type_aircraft with
   | none => true
   | some n => sqlEq r.data.type_aircraft (.vInt n)) &&
  (match num_engines with
   | none => true
   | some n => sqlEq r.data.num_engines (.vInt n))

/-- `search_aircraft_models` from `database.py`. -/
def search_aircraft_models (db : DB) (manufacturer model : Option String)
    (type_aircraft num_engines : Option Int) (limit : Nat) :
    List (TRow ModelData) :=
  ((db.aircraft_models.filter
      (modelPred manufacturer model type_aircraft num_engines)).take limit)

/-- The row shape returned by the two joined lookups: the full registry
row plus the twelve joined model/engine columns (which are `NULL` when the
`LEFT JOIN` found no match). -/
structure JoinedRow where
  reg : TRow RegistryData
  model_manufacturer : PyVal
  model_name : PyVal
  model_type_aircraft : PyVal
  model_type_engine : PyVal
  model_num_engines : PyVal
  model_num_seats : PyVal
  model_weight_class : PyVal
  model_speed : PyVal
  engine_manufacturer : PyVal
  engine_model : PyVal
  engine_horsepower : PyVal
  engine_thrust : PyVal
deriving DecidableEq

/-- The `LEFT JOIN aircraft_models / engines` of the joined lookups: join
condition is SQL equality of the registry row's reference code with the
joined table's primary key (at most one match since keys are unique). -/
def joinRow (db : DB) (r : TRow RegistryData) : JoinedRow :=
  let m := db.aircraft_models.find? (fun m => sqlEq r.data.mfr_mdl_code m.key)
  let e := db.engines.find? (fun e => sqlEq r.data.eng_mfr_mdl e.key)
  { reg := r
    model_manufacturer := match m with | some x => x.data.manufacturer | none => .vNone
    model_name := match m with | some x => x.data.model | none => .vNone
    model_type_aircraft := match m with | some x => x.data.type_aircraft | none => .vNone
    model_type_engine := match m with | some x => x.data.type_engine | none => .vNone
    model_num_engines := match m with | some x => x.data.num_engines | none => .vNone
    model_num_seats := match m with | some x => x.data.num_seats | none => .vNone
    model_weight_class := match m with | some x => x.data.weight_class | none => .vNone
    model_speed := match m with | some x => x.data.speed | none => .vNone
    engine_manufacturer := match e with | some x => x.data.manufacturer | none => .vNone
    engine_model := match e with | some x => x.data.model | none => .vNone
    engine_horsepower := match e with | some x => x.data.horsepower | none => .vNone
    engine_thrust := match e with | some x => x.data.thrust | none => .vNone }

/-- `get_aircraft_with_model_info`: registry row by registration id
(query argument uppercased), left-joined with model and engine. -/
def get_aircraft_with_model_info (db : DB) (n_number : String) :
    Option JoinedRow :=
  (db.aircraft_registry.find?
      (fun r => sqlEq r.key (.vStr (pyUpper n_number)))).map (joinRow db)

/-- `get_aircraft_by_mode_s_with_details`: registry row by transponder
address (query argument uppercased), left-joined with model and engine. -/
def get_aircraft_by_mode_s_with_details (db : DB) (mode_s_hex : String) :
    Option JoinedRow :=
  (db.aircraft_registry.find?
      (fun r => sqlEq r.data.mode_s_code_hex
        (.vStr (pyUpper mode_s_hex)))).map (joinRow db)

/-- `get_stats` from `database.py`: a `COUNT(*)` per table, for exactly the
five table names the source loops over (`custom_data` is not among them). -/
def get_stats (db : DB) : List (String × Nat) :=
  [("aircraft_models", db.aircraft_models.length),
   ("engines", db.engines.length),
   ("aircraft_registry", db.aircraft_registry.length),
   ("dealers", db.dealers.length),
   ("aircraft_deregistered", db.aircraft_deregistered.length)]

/-- The guard of `execute_query`: the stripped, uppercased statement text
must start with `SELECT`. -/
def query_allowed (query : String) : Bool :=
  pyStartsWith (pyUpper (pyStrip query)) "SELECT"

/-- `execute_query` from `database.py`: a statement failing the guard is
rejected with `ValueError` before any connection is opened; `ok` means the
statement text was handed to the store connection for execution (the rows
it would return are abstracted away). -/
def execute_query (query : String) : Except String Unit :=
  if query_allowed query then .ok ()
  else .error "Only SELECT queries are allowed"

/-!  ## Ingestion (`ingest.py`)  -/

/-- `normalize_column_name`: strip, replace non-alphanumerics with
underscores, lowercase, collapse runs of underscores, strip underscores. -/
def normalize_column_name (name : String) : String :=
  let cs := ((pyStrip name).toList.map
    (fun c => if c.isAlphanum then c.toLower else '_'))
  let collapsed := (cs.foldl
    (fun (acc : List Char × Bool) c =>
      if c == '_' then (if acc.2 then acc else ('_' :: acc.1, true))
      else (c :: acc.1, false)) ([], false)).1.reverse
  let stripped :=
    ((collapsed.dropWhile (fun c => c == '_')).reverse.dropWhile
      (fun c => c == '_')).reverse
  String.mk stripped

/-- The accumulated result of one FAA ingest loop: the table being written,
the number of records successfully upserted (`count`), and the number of
records whose individual upsert raised (`self.stats['errors']` delta). -/
structure FoldRes (α : Type) where
  tbl : List (TRow α)
  count : Nat
  errs : Nat
deriving DecidableEq

/-- One iteration of an FAA ingest loop (`ingest_acftref` / `ingest_engines`
/ `ingest_master`): a record with a falsy primary key is skipped
(`continue`); otherwise the upsert is attempted — if the store raises
(failure oracle `sf`) the error counter grows and the loop continues, else
the row is upserted and the count grows. -/
def ingStep {α : Type} (t : Nat) (kn : String) (dataOf : PRec → α)
    (sf : PRec → Bool) (acc : FoldRes α) (rec : PRec) : FoldRes α :=
  if truthy (rec.get kn) then
    if sf rec then { acc with errs := acc.errs + 1 }
    else { tbl := upsertRow t (rec.get kn) (dataOf rec) acc.tbl
           count := acc.count + 1, errs := acc.errs }
  else acc

/-- A whole FAA ingest loop over the parsed record stream. -/
def ingestFold {α : Type} (t : Nat) (kn : String) (dataOf : PRec → α)
    (sf : PRec → Bool) (recs : List PRec) (tbl : List (TRow α)) : FoldRes α :=
  recs.foldl (ingStep t kn dataOf sf) ⟨tbl, 0, 0⟩

/-- `FAAAircraftIngest.ingest_acftref`: parse with the ACFTREF mapping, drop
records with a falsy `code`, upsert the rest into `aircraft_models`.
Returns the updated store, the count (the `{'aircraft_models': count}`
result) and the error-counter delta. -/
def ingest_acftref (t : Nat) (sf : PRec → Bool) (f : CsvFile) (db : DB) :
    DB × Nat × Nat :=
  let r := ingestFold t "code" modelDataOf sf (parse_faa_csv f ACFTREF_COLUMNS)
    db.aircraft_models
  ({ db with aircraft_models := r.tbl }, r.count, r.errs)

/-- `FAAAircraftIngest.ingest_engines`: same loop for `engines`. -/
def ingest_engines (t : Nat) (sf : PRec → Bool) (f : CsvFile) (db : DB) :
    DB × Nat × Nat :=
  let r := ingestFold t "code" engineDataOf sf (parse_faa_csv f ENGINE_COLUMNS)
    db.engines
  ({ db with engines := r.tbl }, r.count, r.errs)

/-- `FAAAircraftIngest.ingest_master`: same loop for `aircraft_registry`,
keyed on `n_number`. -/
def ingest_master (t : Nat) (sf : PRec → Bool) (f : CsvFile) (db : DB) :
    DB × Nat × Nat :=
  let r := ingestFold t "n_number" registryDataOf sf
    (parse_faa_csv f MASTER_COLUMNS) db.aircraft_registry
  ({ db with aircraft_registry := r.tbl }, r.count, r.errs)

/-- Decoded content of a secondary (non-authority) file, by format:
spreadsheet sheets of cell rows, a structured-record file (a list of
items, a single object, or a bare scalar — items kept abstract as their
serialized text), or a generic delimited file as header-keyed row dicts. -/
inductive SecContent where
  | xlsxC (sheets : List (String × List (List PyVal))) : SecContent
  | jsonC (items : Option (List String)) (single : Option String) : SecContent
  | csvC (rows : List (List (String × String))) : SecContent
deriving DecidableEq

deriving instance DecidableEq for Except

/-- A secondary file in the ingest directory: its name, stem and suffix,
and either its decoded content or the error message of the exception its
reading/parsing would raise. -/
structure OtherFile where
  name : String
  stem : String
  suffix : String
  content : Except String SecContent
deriving DecidableEq

/-- A directory handed to `ingest_directory`: the three well-known
authority files (absent, readable, or raising on read) and the remaining
files in iteration order.  The three authority names themselves are
filtered out of the `others` loop by the source, which `ingest_directory`
below mirrors. -/
structure IngestDir where
  acftref : Option (Except String CsvFile)
  engine : Option (Except String CsvFile)
  master : Option (Except String CsvFile)
  others : List OtherFile
deriving DecidableEq

/-- `ingest_xlsx`: for each sheet, first row is headers (falsy header cells
become synthetic `col_<i>` names), synthetic/unnamed columns are dropped,
blank data rows are skipped, and every non-empty extracted dict becomes a
`custom_data` row tagged with the sheet name.  Returns the per-sheet
counts (sheets with no rows at all produce no entry).  The source guards a
spreadsheet-library import in a `try` block whose import statement is
missing from the file as shipped; the evident guarded import is modelled
with the library available, and the spreadsheet reader itself is
abstracted into the decoded sheet content.  The `source_file` column,
`str(file_path)` in the source, is modelled by the file name. -/
def ingest_xlsx (path : String) (sheets : List (String × List (List PyVal)))
    (db : DB) : List (String × Nat) × DB :=
  sheets.foldl
    (fun (acc : List (String × Nat) × DB) sheet =>
      match sheet.2 with
      | [] => acc
      | hrow :: drows =>
        let headers := hrow.enum.map
          (fun p => if truthy p.2 then normalize_column_name (pyStr p.2)
                    else "col_" ++ toString p.1)
        let validCols := headers.enum.filter
          (fun p => !(p.2 == "") && !(pyStartsWith p.2 "col_") &&
            !(strContains (pyLower p.2) "unnamed"))
        let res := drows.foldl
          (fun (a : Nat × DB) row =>
            if row.isEmpty ||
                row.all (fun c => c == PyVal.vNone || c == PyVal.vStr "") then a
            else
              let data := validCols.foldl
                (fun d p =>
                  if p.1 < row.length then dset d p.2 (row.getD p.1 .vNone)
                  else d) []
              if data.isEmpty then a
              else (a.1 + 1,
                { a.2 with custom_data := a.2.custom_data ++
                    [⟨path, sheet.1, .cells data⟩] }))
          (0, acc.2)
        (acc.1 ++ [(sheet.1, res.1)], res.2))
    ([], db)

/-- `ingest_json`: a list of items inserts one `custom_data` row per item,
a single object inserts one row, anything else inserts nothing. -/
def ingest_json (path : String) (items : Option (List String))
    (single : Option String) (db : DB) : List (String × Nat) × DB :=
  match items with
  | some l =>
    ([("data", l.length)],
     { db with custom_data :=
        (db.custom_data ++ l.map (fun s => ⟨path, "data", .js s⟩)) })
  | none =>
    match single with
    | some s =>
      ([("data", 1)],
       { db with custom_data := db.custom_data ++ [⟨path, "data", .js s⟩] })
    | none => ([("data", 0)], db)

/-- The generic `.csv` branch of `ingest_directory`: every row dict is
normalized (empty keys/values dropped, keys through
`normalize_column_name`) and appended to `custom_data` under the file's
stem. -/
def ingestGenericCsv (path stem : String)
    (rows : List (List (String × String))) (db : DB) :
    List (String × Nat) × DB :=
  let res := rows.foldl
    (fun (a : Nat × DB) row =>
      let normalized := row.foldl
        (fun d p =>
          if !(p.1 == "") && !(p.2 == "") then
            dset d (normalize_column_name p.1) p.2
          else d) []
      (a.1 + 1,
       { a.2 with custom_data := a.2.custom_data ++
           [⟨path, stem, .text normalized⟩] }))
    (0, db)
  ([("rows", res.1)], res.2)

/-- The summary dict returned by `ingest_directory`. -/
structure Summary where
  files_processed : List String
  files_skipped : List (String × String)
  stats : List (String × List (String × Nat))
  database_stats : List (String × Nat)
deriving DecidableEq

/-- The visible outcome of an `ingest_directory` call: a normal summary, a
returned `{'error': ...}` result (directory not found), or an uncaught
exception propagating to the caller, each alongside the store state the
call leaves behind. -/
inductive IngestOutcome where
  | ok (s : Summary) (db : DB) : IngestOutcome
  | errResult (msg : String) (db : DB) : IngestOutcome
  | raised (msg : String) (db : DB) : IngestOutcome
deriving DecidableEq

/-- Dispatch of one secondary file inside the `others` loop: the
processing result (counts dict) or the caught error/reason text. -/
def processOther (f : OtherFile) (db : DB) :
    Except String (List (String × Nat)) × DB :=
  if pyLower f.suffix == ".xlsx" then
    match f.content with
    | .ok (.xlsxC sheets) =>
      let r := ingest_xlsx f.name sheets db
      (.ok r.1, r.2)
    | .ok _ => (.error "invalid xlsx file", db)
    | .error e => (.error e, db)
  else if pyLower f.suffix == ".json" then
    match f.content with
    | .ok (.jsonC items single) =>
      let r := ingest_json f.name items single db
      (.ok r.1, r.2)
    | .ok _ => (.error "invalid json file", db)
    | .error e => (.error e, db)
  else if pyLower f.suffix == ".csv" then
    match f.content with
    | .ok (.csvC rows) =>
      let r := ingestGenericCsv f.name f.stem rows db
      (.ok r.1, r.2)
    | .ok _ => (.error "invalid csv file", db)
    | .error e => (.error e, db)
  else (.error "unsupported format", db)

/-- Whether the dispatch of `f` succeeds, independent of the store. -/
def otherOutcome (f : OtherFile) : Except String (OtherFile) :=
  match (processOther f emptyDB).1 with
  | .ok _ => .ok f
  | .error e => .error e

/-- The `others` loop of `ingest_directory`: each file is processed inside
`try/except`; a success appends to `files_processed` and the stats dict, a
failure appends `(name, error)` to `files_skipped`, and in both cases the
loop continues with the next file. -/
def othersPhase (files : List OtherFile) (db : DB)
    (stats : List (String × List (String × Nat)))
    (proc : List String) (skip : List (String × String)) :
    (List (String × List (String × Nat)) × List String ×
      List (String × String)) × DB :=
  match files with
  | [] => ((stats, proc, skip), db)
  | f :: rest =>
    let r := processOther f db
    match r.1 with
    | .ok st => othersPhase rest r.2 (stats ++ [(f.name, st)])
        (proc ++ [f.name]) skip
    | .error e => othersPhase rest r.2 stats proc (skip ++ [(f.name, e)])

/-- `ingest_directory` from `ingest.py`: report directory-not-found as an
error result; run the three authority files in order through a fresh FAA
ingest (a read failure there is *not* caught and propagates as `raised`);
then dispatch every remaining file by extension with per-file error
isolation; finally snapshot the store-wide counts. -/
def ingest_directory (t : Nat) (sf : PRec → Bool) (dir : Option IngestDir)
    (db : DB) : IngestOutcome :=
  match dir with
  | none => .errResult "Directory not found" db
  | some d =>
    match d.acftref with
    | some (.error e) => .raised e db
    | oA =>
      let pA := match oA with
        | some (.ok f) =>
          let r := ingest_acftref t sf f db
          (r.1, [("acftref", [("aircraft_models", r.2.1)])], ["ACFTREF.txt"])
        | _ => (db, [], [])
      match d.engine with
      | some (.error e) => .raised e pA.1
      | oE =>
        let pE := match oE with
          | some (.ok f) =>
            let r := ingest_engines t sf f pA.1
            (r.1, pA.2.1 ++ [("engine", [("engines", r.2.1)])],
             pA.2.2 ++ ["ENGINE.txt"])
          | _ => pA
        match d.master with
        | some (.error e) => .raised e pE.1
        | oM =>
          let pM := match oM with
            | some (.ok f) =>
              let r := ingest_master t sf f pE.1
              (r.1, pE.2.1 ++ [("master", [("aircraft_registry", r.2.1)])],
               pE.2.2 ++ ["MASTER.txt"])
            | _ => pE
          let rest := d.others.filter (fun f =>
            !(f.name == "ACFTREF.txt") && !(f.name == "ENGINE.txt") &&
            !(f.name == "MASTER.txt"))
          let oRes := othersPhase rest pM.1 pM.2.1 pM.2.2 []
          .ok { files_processed := oRes.1.2.1
                files_skipped := oRes.1.2.2
                stats := oRes.1.1
                database_stats := get_stats oRes.2 } oRes.2

/-!  ## Derived notions used by the statements  -/

/-- The primary-key column of a table, in row order. -/
def keyList {α : Type} (tbl : List (TRow α)) : List PyVal :=
  tbl.map (fun r => r.key)

/-- The (first) row under a given key. -/
def lookupK {α : Type} (tbl : List (TRow α)) (k : PyVal) : Option (TRow α) :=
  tbl.find? (fun r => r.key == k)

/-- A row without its volatile `updated_at` column: its key, its non-key
data and its creation timestamp.  "Store content" in the idempotence claim
is compared through this projection, since every upsert — including a
perfectly idempotent replay — refreshes `updated_at` by contract. -/
def rowContent {α : Type} (r : TRow α) : PyVal × α × Nat :=
  (r.key, r.data, r.created_at)

/-- A table's content (all rows, in order, through `rowContent`). -/
def contentList {α : Type} (tbl : List (TRow α)) : List (PyVal × α × Nat) :=
  tbl.map rowContent

/-- Store content: all six tables, keyed rows through `rowContent`. -/
def dbContent (db : DB) :
    List (PyVal × ModelData × Nat) × List (PyVal × EngineData × Nat) ×
    List (PyVal × RegistryData × Nat) × List Unit × List Unit ×
    List CustomRow :=
  (contentList db.aircraft_models, contentList db.engines,
   contentList db.aircraft_registry, db.dealers, db.aircraft_deregistered,
   db.custom_data)

/-- Well-formedness guaranteed by the schema's `PRIMARY KEY` constraints:
no two rows of a keyed table share a key. -/
def dbKeysNodup (db : DB) : Prop :=
  (keyList db.aircraft_models).Nodup ∧ (keyList db.engines).Nodup ∧
  (keyList db.aircraft_registry).Nodup

/-- The three authority file types. -/
inductive FaaKind where
  | acftref : FaaKind
  | engine : FaaKind
  | master : FaaKind
deriving DecidableEq

/-- A directory holding exactly one readable authority file. -/
def mkFaaDir (k : FaaKind) (f : CsvFile) : IngestDir :=
  match k with
  | .acftref => ⟨some (.ok f), none, none, []⟩
  | .engine => ⟨none, some (.ok f), none, []⟩
  | .master => ⟨none, none, some (.ok f), []⟩

/-- The no-failure store oracle: every individual upsert succeeds. -/
def noFail : PRec → Bool := fun _ => false

/-- A record the ingest loop actually writes: truthy key and no store
failure. -/
def effRec (kn : String) (sf : PRec → Bool) (rec : PRec) : Bool :=
  truthy (rec.get kn) && !(sf rec)

/-- The helper fold computing just the table component of an FAA ingest
loop. -/
def ingestTbl {α : Type} (t : Nat) (kn : String) (dataOf : PRec → α)
    (sf : PRec → Bool) (recs : List PRec) (tbl : List (TRow α)) :
    List (TRow α) :=
  recs.foldl
    (fun tb r =>
      if effRec kn sf r then upsertRow t (r.get kn) (dataOf r) tb else tb)
    tbl

/-- The last record of the stream that writes under key `k`. -/
def lastEff (kn : String) (sf : PRec → Bool) (recs : List PRec) (k : PyVal) :
    Option PRec :=
  recs.reverse.find? (fun r => effRec kn sf r && (r.get kn == k))

/-- Creation timestamp an upsert at time `t` leaves under a key: the
existing row's if there is one, else `t`. -/
def crOf {α : Type} (o : Option (TRow α)) (t : Nat) : Nat :=
  match o with
  | some r => r.created_at
  | none => t

/-- The `files_skipped` entry a secondary file produces, independent of
the store state: supported formats surface their read/parse error, and an
unsupported extension is recorded with a fixed reason. -/
def skipOf (f : OtherFile) : Option (String × String) :=
  match (processOther f emptyDB).1 with
  | .ok _ => none
  | .error e => some (f.name, e)

/-- No authority slot of the directory raises on read. -/
def goodAuthority (d : IngestDir) : Prop :=
  (∀ e, d.acftref ≠ some (.error e)) ∧ (∀ e, d.engine ≠ some (.error e)) ∧
  (∀ e, d.master ≠ some (.error e))

/-!  ## Dictionary lemmas  -/

lemma dfind_dset_self {α : Type} (d : List (String × α)) (k : String) (v : α) :
    dfind (dset d k v) k = some v := by
  induction d with
  | nil => simp [dset, dfind]
  | cons p rest ih =>
    by_cases h : p.1 = k
    · simp [dset, dfind, h]
    · simp only [dset, beq_iff_eq, h, if_false]
      simpa [dfind, h] using ih

lemma dfind_dset_ne {α : Type} (d : List (String × α)) (k k' : String) (v : α)
    (h : k' ≠ k) : dfind (dset d k v) k' = dfind d k' := by
  induction d with
  | nil => simp [dset, dfind, Ne.symm h]
  | cons p rest ih =>
    by_cases hp : p.1 = k
    · simp [dset, dfind, hp, Ne.symm h, h]
    · by_cases hp' : p.1 = k'
      · simp [dset, dfind, hp, hp', h]
      · simpa [dset, dfind, hp, hp', h] using ih

lemma foldl_dset_untouched {α : Type} (l : List (String × α))
    (d0 : List (String × α)) (k : String) (h : ∀ p ∈ l, p.1 ≠ k) :
    dfind (l.foldl (fun d p => dset d p.1 p.2) d0) k = dfind d0 k := by
  induction l generalizing d0 with
  | nil => rfl
  | cons p rest ih =>
    have hp : p.1 ≠ k := h p (by simp)
    rw [List.foldl_cons, ih (dset d0 p.1 p.2) (fun q hq => h q (by simp [hq])),
      dfind_dset_ne _ _ _ _ (Ne.symm hp)]

lemma foldl_dset_mem_nodup {α : Type} (l : List (String × α))
    (d0 : List (String × α)) (k : String) (v : α)
    (hn : (l.map Prod.fst).Nodup) (hm : (k, v) ∈ l) :
    dfind (l.foldl (fun d p => dset d p.1 p.2) d0) k = some v := by
  induction l generalizing d0 with
  | nil => cases hm
  | cons p rest ih =>
    rcases List.mem_cons.mp hm with he | hr
    · have hk : p.1 = k := by rw [← he]
      have hnotin : ∀ q ∈ rest, q.1 ≠ k := by
        intro q hq hqk
        have : p.1 ∈ rest.map Prod.fst := by
          rw [hk, ← hqk]; exact List.mem_map.mpr ⟨q, hq, rfl⟩
        exact (List.nodup_cons.mp hn).1 this
      rw [List.foldl_cons, foldl_dset_untouched rest _ k hnotin, ← he,
        dfind_dset_self]
    · rw [List.foldl_cons]
      exact ih _ (List.nodup_cons.mp hn).2 hr

/-!  ## Keyed-table lemmas  -/

lemma keyList_cons {α : Type} (r : TRow α) (rs : List (TRow α)) :
    keyList (r :: rs) = r.key :: keyList rs := rfl

lemma upsertRow_cons_hit {α : Type} (t : Nat) (k : PyVal) (d : α)
    (r : TRow α) (rs : List (TRow α)) (h : r.key = k) :
    upsertRow t k d (r :: rs) = ⟨k, d, r.created_at, t⟩ :: rs := by
  simp [upsertRow, h]

lemma upsertRow_cons_miss {α : Type} (t : Nat) (k : PyVal) (d : α)
    (r : TRow α) (rs : List (TRow α)) (h : ¬r.key = k) :
    upsertRow t k d (r :: rs) = r :: upsertRow t k d rs := by
  simp [upsertRow, h]

lemma keyList_upsertRow {α : Type} (t : Nat) (k : PyVal) (d : α)
    (tbl : List (TRow α)) :
    keyList (upsertRow t k d tbl) =
      if k ∈ keyList tbl then keyList tbl else keyList tbl ++ [k] := by
  induction tbl with
  | nil => simp [upsertRow, keyList]
  | cons r rs ih =>
    by_cases h : r.key = k
    · have hcond : k ∈ keyList (r :: rs) := by
        rw [keyList_cons, ← h]; exact List.mem_cons_self _ _
      rw [if_pos hcond, upsertRow_cons_hit t k d r rs h, keyList_cons,
        keyList_cons, h]
    · rw [upsertRow_cons_miss t k d r rs h, keyList_cons, ih, keyList_cons]
      by_cases hm : k ∈ keyList rs
      · rw [if_pos hm, if_pos (List.mem_cons_of_mem _ hm)]
      · have hnot : k ∉ r.key :: keyList rs := by
          intro hx
          rcases List.mem_cons.mp hx with h1 | h2
          · exact h h1.symm
          · exact hm h2
        rw [if_neg hm, if_neg hnot, List.cons_append]

lemma lookupK_cons {α : Type} (r : TRow α) (rs : List (TRow α)) (k : PyVal) :
    lookupK (r :: rs) k = if r.key = k then some r else lookupK rs k := by
  by_cases h : r.key = k
  · simp [lookupK, List.find?_cons, h]
  · simp [lookupK, List.find?_cons, h]

lemma lookupK_upsertRow_self {α : Type} (t : Nat) (k : PyVal) (d : α)
    (tbl : List (TRow α)) :
    lookupK (upsertRow t k d tbl) k =
      some ⟨k, d, crOf (lookupK tbl k) t, t⟩ := by
  induction tbl with
  | nil => simp [upsertRow, lookupK, crOf]
  | cons r rs ih =>
    by_cases h : r.key = k
    · rw [upsertRow_cons_hit t k d r rs h, lookupK_cons, lookupK_cons,
        if_pos h]
      simp [crOf]
    · rw [upsertRow_cons_miss t k d r rs h, lookupK_cons, if_neg h, ih,
        lookupK_cons, if_neg h]

lemma lookupK_upsertRow_ne {α : Type} (t : Nat) (k k' : PyVal) (d : α)
    (tbl : List (TRow α)) (h : k' ≠ k) :
    lookupK (upsertRow t k d tbl) k' = lookupK tbl k' := by
  induction tbl with
  | nil => simp [upsertRow, lookupK, Ne.symm h]
  | cons r rs ih =>
    by_cases hr : r.key = k
    · rw [upsertRow_cons_hit t k d r rs hr, lookupK_cons, lookupK_cons,
        if_neg (show ¬r.key = k' by rw [hr]; exact Ne.symm h)]
      exact if_neg (Ne.symm h)
    · rw [upsertRow_cons_miss t k d r rs hr, lookupK_cons, lookupK_cons, ih]

lemma nodup_keyList_upsertRow {α : Type} (t : Nat) (k : PyVal) (d : α)
    (tbl : List (TRow α)) (h : (keyList tbl).Nodup) :
    (keyList (upsertRow t k d tbl)).Nodup := by
  rw [keyList_upsertRow]
  by_cases hm : k ∈ keyList tbl
  · simpa [hm] using h
  · simp only [hm, if_false]
    rw [List.nodup_append]
    exact ⟨h, List.nodup_singleton k, by
      intro a ha hak
      rcases List.mem_singleton.mp hak with rfl
      exact hm ha⟩

/-!  ## FAA ingest loop lemmas  -/

lemma ingestTbl_nil {α : Type} (t : Nat) (kn : String) (dataOf : PRec → α)
    (sf : PRec → Bool) (tbl : List (TRow α)) :
    ingestTbl t kn dataOf sf [] tbl = tbl := rfl

lemma ingestTbl_cons {α : Type} (t : Nat) (kn : String) (dataOf : PRec → α)
    (sf : PRec → Bool) (r : PRec) (rest : List PRec) (tbl : List (TRow α)) :
    ingestTbl t kn dataOf sf (r :: rest) tbl =
      ingestTbl t kn dataOf sf rest
        (if effRec kn sf r then upsertRow t (r.get kn) (dataOf r) tbl
         else tbl) := rfl

lemma foldl_ingStep_tbl {α : Type} (t : Nat) (kn : String) (dataOf : PRec → α)
    (sf : PRec → Bool) (recs : List PRec) (acc : FoldRes α) :
    (recs.foldl (ingStep t kn dataOf sf) acc).tbl =
      ingestTbl t kn dataOf sf recs acc.tbl := by
  induction recs generalizing acc with
  | nil => rfl
  | cons r rest ih =>
    rw [List.foldl_cons, ih, ingestTbl_cons]
    congr 1
    by_cases ht : truthy (r.get kn)
    · by_cases hs : sf r
      · simp [ingStep, ht, hs, effRec]
      · simp [ingStep, ht, hs, effRec]
    · simp [ingStep, ht, effRec]

lemma foldl_ingStep_count {α : Type} (t : Nat) (kn : String)
    (dataOf : PRec → α) (sf : PRec → Bool) (recs : List PRec)
    (acc : FoldRes α) :
    (recs.foldl (ingStep t kn dataOf sf) acc).count =
      acc.count + recs.countP (effRec kn sf) := by
  induction recs generalizing acc with
  | nil => simp
  | cons r rest ih =>
    rw [List.foldl_cons, ih, List.countP_cons]
    have hstep : (ingStep t kn dataOf sf acc r).count =
        acc.count + (if effRec kn sf r then 1 else 0) := by
      by_cases ht : truthy (r.get kn)
      · by_cases hs : sf r
        · simp [ingStep, ht, hs, effRec]
        · simp [ingStep, ht, hs, effRec]
      · simp [ingStep, ht, effRec]
    rw [hstep]
    by_cases he : effRec kn sf r = true
    · simp [he]; omega
    · simp [he]

lemma foldl_ingStep_errs {α : Type} (t : Nat) (kn : String)
    (dataOf : PRec → α) (sf : PRec → Bool) (recs : List PRec)
    (acc : FoldRes α) :
    (recs.foldl (ingStep t kn dataOf sf) acc).errs =
      acc.errs + recs.countP (fun r => truthy (r.get kn) && sf r) := by
  induction recs generalizing acc with
  | nil => simp
  | cons r rest ih =>
    rw [List.foldl_cons, ih, List.countP_cons]
    have hstep : (ingStep t kn dataOf sf acc r).errs =
        acc.errs + (if truthy (r.get kn) && sf r then 1 else 0) := by
      by_cases ht : truthy (r.get kn)
      · by_cases hs : sf r
        · simp [ingStep, ht, hs]
        · simp [ingStep, ht, hs]
      · simp [ingStep, ht]
    rw [hstep]
    by_cases he : (truthy (r.get kn) && sf r) = true
    · simp [he]; omega
    · simp [he]

lemma ingestFold_parts {α : Type} (t : Nat) (kn : String) (dataOf : PRec → α)
    (sf : PRec → Bool) (recs : List PRec) (tbl : List (TRow α)) :
    ingestFold t kn dataOf sf recs tbl =
      ⟨ingestTbl t kn dataOf sf recs tbl, recs.countP (effRec kn sf),
       recs.countP (fun r => truthy (r.get kn) && sf r)⟩ := by
  have h1 := foldl_ingStep_tbl t kn dataOf sf recs ⟨tbl, 0, 0⟩
  have h2 := foldl_ingStep_count t kn dataOf sf recs ⟨tbl, 0, 0⟩
  have h3 := foldl_ingStep_errs t kn dataOf sf recs ⟨tbl, 0, 0⟩
  simp only [ingestFold]
  cases hf : recs.foldl (ingStep t kn dataOf sf) ⟨tbl, 0, 0⟩
  rw [hf] at h1 h2 h3
  simp only at h1 h2 h3
  simp [h1, h2, h3]

lemma mem_keyList_upsertRow_of_mem {α : Type} (t : Nat) (k k' : PyVal)
    (d : α) (tbl : List (TRow α)) (h : k' ∈ keyList tbl) :
    k' ∈ keyList (upsertRow t k d tbl) := by
  rw [keyList_upsertRow]
  by_cases hm : k ∈ keyList tbl
  · simpa [hm] using h
  · simp only [hm, if_false]
    exact List.mem_append_left _ h

lemma self_mem_keyList_upsertRow {α : Type} (t : Nat) (k : PyVal) (d : α)
    (tbl : List (TRow α)) : k ∈ keyList (upsertRow t k d tbl) := by
  rw [keyList_upsertRow]
  by_cases hm : k ∈ keyList tbl
  · simp [hm]
  · simp only [hm, if_false]
    exact List.mem_append_right _ (List.mem_singleton.mpr rfl)

lemma mem_keyList_ingestTbl_of_mem {α : Type} (t : Nat) (kn : String)
    (dataOf : PRec → α) (sf : PRec → Bool) (recs : List PRec)
    (tbl : List (TRow α)) (k : PyVal) (h : k ∈ keyList tbl) :
    k ∈ keyList (ingestTbl t kn dataOf sf recs tbl) := by
  induction recs generalizing tbl with
  | nil => exact h
  | cons r rest ih =>
    rw [ingestTbl_cons]
    by_cases he : effRec kn sf r = true
    · simp only [he, if_true]
      exact ih _ (mem_keyList_upsertRow_of_mem _ _ _ _ _ h)
    · simp only [he, if_false]
      exact ih _ h

lemma effKey_mem_ingestTbl {α : Type} (t : Nat) (kn : String)
    (dataOf : PRec → α) (sf : PRec → Bool) (recs : List PRec)
    (tbl : List (TRow α)) (r : PRec) (hr : r ∈ recs)
    (he : effRec kn sf r = true) :
    r.get kn ∈ keyList (ingestTbl t kn dataOf sf recs tbl) := by
  induction recs generalizing tbl with
  | nil => cases hr
  | cons r0 rest ih =>
    rw [ingestTbl_cons]
    rcases List.mem_cons.mp hr with rfl | hr'
    · simp only [he, if_true]
      exact mem_keyList_ingestTbl_of_mem _ _ _ _ _ _ _
        (self_mem_keyList_upsertRow _ _ _ _)
    · by_cases he0 : effRec kn sf r0 = true
      · simp only [he0, if_true]
        exact ih _ hr'
      · simp only [he0, if_false]
        exact ih _ hr'

lemma keyList_ingestTbl_stable {α : Type} (t : Nat) (kn : String)
    (dataOf : PRec → α) (sf : PRec → Bool) (recs : List PRec)
    (tbl : List (TRow α))
    (h : ∀ r ∈ recs, effRec kn sf r = true → r.get kn ∈ keyList tbl) :
    keyList (ingestTbl t kn dataOf sf recs tbl) = keyList tbl := by
  induction recs generalizing tbl with
  | nil => rfl
  | cons r0 rest ih =>
    rw [ingestTbl_cons]
    by_cases he0 : effRec kn sf r0 = true
    · simp only [he0, if_true]
      have hk0 : r0.get kn ∈ keyList tbl := h r0 (by simp) he0
      have hkeys : keyList (upsertRow t (r0.get kn) (dataOf r0) tbl) =
          keyList tbl := by
        rw [keyList_upsertRow, if_pos hk0]
      rw [ih _ (fun r hr hre => by
        rw [hkeys]; exact h r (List.mem_cons_of_mem _ hr) hre), hkeys]
    · simp only [he0, if_false]
      exact ih _ (fun r hr hre => h r (List.mem_cons_of_mem _ hr) hre)

lemma nodup_keyList_ingestTbl {α : Type} (t : Nat) (kn : String)
    (dataOf : PRec → α) (sf : PRec → Bool) (recs : List PRec)
    (tbl : List (TRow α)) (h : (keyList tbl).Nodup) :
    (keyList (ingestTbl t kn dataOf sf recs tbl)).Nodup := by
  induction recs generalizing tbl with
  | nil => exact h
  | cons r0 rest ih =>
    rw [ingestTbl_cons]
    by_cases he0 : effRec kn sf r0 = true
    · simp only [he0, if_true]
      exact ih _ (nodup_keyList_upsertRow _ _ _ _ h)
    · simp only [he0, if_false]
      exact ih _ h

lemma lastEff_nil (kn : String) (sf : PRec → Bool) (k : PyVal) :
    lastEff kn sf [] k = none := rfl

lemma lastEff_cons (kn : String) (sf : PRec → Bool) (r0 : PRec)
    (rest : List PRec) (k : PyVal) :
    lastEff kn sf (r0 :: rest) k =
      (lastEff kn sf rest k).or
        (if effRec kn sf r0 && (r0.get kn == k) then some r0 else none) := by
  unfold lastEff
  rw [List.reverse_cons, List.find?_append]
  congr 1
  cases hp : (effRec kn sf r0 && (r0.get kn == k)) <;>
    simp [List.find?_cons, hp]

lemma lookupK_ingestTbl {α : Type} (t : Nat) (kn : String)
    (dataOf : PRec → α) (sf : PRec → Bool) (recs : List PRec)
    (tbl : List (TRow α)) (k : PyVal) :
    lookupK (ingestTbl t kn dataOf sf recs tbl) k =
      match lastEff kn sf recs k with
      | some r => some ⟨k, dataOf r, crOf (lookupK tbl k) t, t⟩
      | none => lookupK tbl k := by
  induction recs generalizing tbl with
  | nil => simp [ingestTbl_nil, lastEff_nil]
  | cons r0 rest ih =>
    rw [ingestTbl_cons, lastEff_cons]
    by_cases he0 : effRec kn sf r0 = true
    · by_cases hk0 : r0.get kn = k
      · simp only [he0, if_true]
        rw [hk0, ih, lookupK_upsertRow_self]
        have hb : (effRec kn sf r0 && (r0.get kn == k)) = true := by
          simp [he0, hk0]
        cases hle : lastEff kn sf rest k with
        | some r1 => simp [hle, hb, crOf]
        | none => simp [hle, hb, crOf]
      · simp only [he0, if_true]
        rw [ih, lookupK_upsertRow_ne _ _ _ _ _ (fun hh => hk0 hh.symm)]
        have hb : (effRec kn sf r0 && (r0.get kn == k)) = false := by
          simp [hk0]
        cases hle : lastEff kn sf rest k with
        | some r1 => simp [hle, hb]
        | none => simp [hle, hb, hk0]
    · simp only [he0, if_false]
      rw [ih]
      have he0' : effRec kn sf r0 = false := by
        cases hef : effRec kn sf r0
        · rfl
        · exact absurd hef he0
      have hb : (effRec kn sf r0 && (r0.get kn == k)) = false := by
        simp [he0']
      cases hle : lastEff kn sf rest k with
      | some r1 => simp [hle, hb]
      | none => simp [hle, hb]

lemma lookupK_eq_none_of_not_mem {α : Type} (tbl : List (TRow α)) (k : PyVal)
    (h : k ∉ keyList tbl) : lookupK tbl k = none := by
  apply List.find?_eq_none.mpr
  intro r hr hpred
  apply h
  have hkey : r.key = k := by simpa using hpred
  rw [← hkey]
  exact List.mem_map.mpr ⟨r, hr, rfl⟩

lemma contentList_cons {α : Type} (x : TRow α) (a : List (TRow α)) :
    contentList (x :: a) = rowContent x :: contentList a := rfl

lemma contentList_ext {α : Type} (a b : List (TRow α))
    (hk : keyList a = keyList b) (hn : (keyList a).Nodup)
    (hl : ∀ k, (lookupK a k).map rowContent = (lookupK b k).map rowContent) :
    contentList a = contentList b := by
  induction a generalizing b with
  | nil =>
    cases b with
    | nil => rfl
    | cons y b' => exact absurd hk (by simp [keyList])
  | cons x a' ih =>
    cases b with
    | nil => exact absurd hk (by simp [keyList])
    | cons y b' =>
      rw [keyList_cons, keyList_cons] at hk
      have hkey : x.key = y.key := (List.cons.injEq _ _ _ _).mp hk |>.1
      have htl : keyList a' = keyList b' := (List.cons.injEq _ _ _ _).mp hk |>.2
      have hx := hl x.key
      rw [lookupK_cons, lookupK_cons, if_pos rfl, if_pos hkey.symm] at hx
      have hxy : rowContent x = rowContent y := by simpa using hx
      rw [keyList_cons] at hn
      have hnotin : x.key ∉ keyList a' := (List.nodup_cons.mp hn).1
      have hn' : (keyList a').Nodup := (List.nodup_cons.mp hn).2
      have hnotinb : x.key ∉ keyList b' := htl ▸ hnotin
      have htail : ∀ k,
          (lookupK a' k).map rowContent = (lookupK b' k).map rowContent := by
        intro k
        by_cases hkx : x.key = k
        · rw [lookupK_eq_none_of_not_mem a' k (hkx ▸ hnotin),
            lookupK_eq_none_of_not_mem b' k (hkx ▸ hnotinb)]
        · have hlk := hl k
          rw [lookupK_cons, lookupK_cons, if_neg hkx,
            if_neg (by rw [← hkey]; exact hkx)] at hlk
          exact hlk
      rw [contentList_cons, contentList_cons, hxy, ih b' htl hn' htail]

/-- Replaying the same record stream over the resulting table changes no
row's key, data or creation timestamp, and no row count (only `updated_at`
moves). -/
lemma ingestTbl_idem {α : Type} (t1 t2 : Nat) (kn : String)
    (dataOf : PRec → α) (sf : PRec → Bool) (recs : List PRec)
    (tbl : List (TRow α)) (hn : (keyList tbl).Nodup) :
    contentList
        (ingestTbl t2 kn dataOf sf recs (ingestTbl t1 kn dataOf sf recs tbl)) =
      contentList (ingestTbl t1 kn dataOf sf recs tbl) := by
  have hsub : ∀ r ∈ recs, effRec kn sf r = true →
      r.get kn ∈ keyList (ingestTbl t1 kn dataOf sf recs tbl) :=
    fun r hr he => effKey_mem_ingestTbl t1 kn dataOf sf recs tbl r hr he
  have hkeys := keyList_ingestTbl_stable t2 kn dataOf sf recs
    (ingestTbl t1 kn dataOf sf recs tbl) hsub
  apply contentList_ext _ _ hkeys
  · rw [hkeys]
    exact nodup_keyList_ingestTbl t1 kn dataOf sf recs tbl hn
  · intro k
    rw [lookupK_ingestTbl t2 kn dataOf sf recs
      (ingestTbl t1 kn dataOf sf recs tbl) k,
      lookupK_ingestTbl t1 kn dataOf sf recs tbl k]
    cases hle : lastEff kn sf recs k with
    | some r => simp [crOf, rowContent]
    | none => rfl

lemma filter_upsertRow_twice {α : Type} (t1 t2 : Nat) (k : PyVal)
    (d1 d2 : α) (tbl : List (TRow α)) (h : ∀ r ∈ tbl, r.key ≠ k) :
    (upsertRow t2 k d2 (upsertRow t1 k d1 tbl)).filter (fun r => r.key == k) =
      [⟨k, d2, t1, t2⟩] := by
  induction tbl with
  | nil => simp [upsertRow, List.filter]
  | cons r rs ih =>
    have hr : ¬r.key = k := h r (List.mem_cons_self _ _)
    rw [upsertRow_cons_miss t1 k d1 r rs hr,
      upsertRow_cons_miss t2 k d2 r _ hr, List.filter_cons]
    simp only [beq_iff_eq, hr, if_false]
    exact ih (fun x hx => h x (List.mem_cons_of_mem _ hx))

lemma upsertRow_fresh {α : Type} (t : Nat) (k : PyVal) (d : α)
    (tbl : List (TRow α)) (h : ∀ r ∈ tbl, r.key ≠ k) :
    upsertRow t k d tbl = tbl ++ [⟨k, d, t, t⟩] := by
  induction tbl with
  | nil => rfl
  | cons r rs ih =>
    rw [upsertRow_cons_miss t k d r rs (h r (List.mem_cons_self _ _)),
      ih (fun x hx => h x (List.mem_cons_of_mem _ hx)), List.cons_append]

/-!  ## `others` loop lemmas  -/

lemma processOther_error_content (f : OtherFile) (e : String)
    (hc : f.content = .error e)
    (hs : pyLower f.suffix = ".xlsx" ∨ pyLower f.suffix = ".json" ∨
      pyLower f.suffix = ".csv") (db : DB) :
    processOther f db = (.error e, db) := by
  rcases hs with h | h | h <;> simp [processOther, h, hc]

lemma othersPhase_skip_mono (files : List OtherFile) (db : DB)
    (stats : List (String × List (String × Nat))) (proc : List String)
    (skip : List (String × String)) (x : String × String) (hx : x ∈ skip) :
    x ∈ (othersPhase files db stats proc skip).1.2.2 := by
  induction files generalizing db stats proc skip with
  | nil => exact hx
  | cons g rest ih =>
    rw [othersPhase]
    cases hg : (processOther g db).1 with
    | ok st => exact ih _ _ _ _ hx
    | error e => exact ih _ _ _ _ (List.mem_append_left _ hx)

lemma othersPhase_skip_mem (files : List OtherFile) (db : DB)
    (stats : List (String × List (String × Nat))) (proc : List String)
    (skip : List (String × String)) (f : OtherFile) (e : String)
    (hf : f ∈ files) (hpe : ∀ db', processOther f db' = (.error e, db')) :
    (f.name, e) ∈ (othersPhase files db stats proc skip).1.2.2 := by
  induction files generalizing db stats proc skip with
  | nil => cases hf
  | cons g rest ih =>
    rcases List.mem_cons.mp hf with rfl | hf'
    · rw [othersPhase]
      have := hpe db
      rw [this]
      exact othersPhase_skip_mono _ _ _ _ _ _
        (List.mem_append_right _ (List.mem_singleton.mpr rfl))
    · rw [othersPhase]
      cases hg : (processOther g db).1 with
      | ok st => exact ih _ _ _ _ hf'
      | error e' => exact ih _ _ _ _ hf'

/-!  ## Drop/continue lemmas for the FAA loops  -/

lemma foldl_ingStep_filter_truthy {α : Type} (t : Nat) (kn : String)
    (dataOf : PRec → α) (sf : PRec → Bool) (recs : List PRec)
    (acc : FoldRes α) :
    (recs.filter (fun r => truthy (r.get kn))).foldl
        (ingStep t kn dataOf sf) acc =
      recs.foldl (ingStep t kn dataOf sf) acc := by
  induction recs generalizing acc with
  | nil => rfl
  | cons r rest ih =>
    rw [List.filter_cons]
    by_cases ht : truthy (r.get kn) = true
    · simp only [ht, if_true]
      rw [List.foldl_cons, List.foldl_cons, ih]
    · simp only [ht, Bool.false_eq_true, if_false]
      rw [List.foldl_cons, ih]
      congr 1
      simp [ingStep, ht]

lemma ingestFold_filter_truthy {α : Type} (t : Nat) (kn : String)
    (dataOf : PRec → α) (sf : PRec → Bool) (recs : List PRec)
    (tbl : List (TRow α)) :
    ingestFold t kn dataOf sf (recs.filter (fun r => truthy (r.get kn))) tbl =
      ingestFold t kn dataOf sf recs tbl :=
  foldl_ingStep_filter_truthy t kn dataOf sf recs ⟨tbl, 0, 0⟩

lemma ingestFold_append {α : Type} (t : Nat) (kn : String)
    (dataOf : PRec → α) (sf : PRec → Bool) (xs ys : List PRec)
    (tbl : List (TRow α)) :
    ingestFold t kn dataOf sf (xs ++ ys) tbl =
      ⟨(ingestFold t kn dataOf sf ys (ingestFold t kn dataOf sf xs tbl).tbl).tbl,
       (ingestFold t kn dataOf sf xs tbl).count +
         (ingestFold t kn dataOf sf ys
           (ingestFold t kn dataOf sf xs tbl).tbl).count,
       (ingestFold t kn dataOf sf xs tbl).errs +
         (ingestFold t kn dataOf sf ys
           (ingestFold t kn dataOf sf xs tbl).tbl).errs⟩ := by
  rw [ingestFold_parts, ingestFold_parts, ingestFold_parts,
    List.countP_append, List.countP_append]
  simp only [ingestTbl, List.foldl_append]

lemma dfind_rowRaw (headerC : List String) (row : List String) (i : Nat)
    (hn : headerC.Nodup) (hi : i < headerC.length) :
    dfind (rowRaw headerC row) (headerC.getD i "") =
      some (pyStrip (row.getD i "")) := by
  have hfold : rowRaw headerC row =
      (headerC.enum.map (fun p => (p.2, pyStrip (row.getD p.1 "")))).foldl
        (fun d p => dset d p.1 p.2) [] := by
    rw [List.foldl_map]
    rfl
  have hfst : (headerC.enum.map
      (fun p => (p.2, pyStrip (row.getD p.1 "")))).map Prod.fst = headerC := by
    rw [List.map_map]
    exact List.enum_map_snd headerC
  have hiE : i < headerC.enum.length := by rwa [List.enum_length]
  have hiL : i < (headerC.enum.map
      (fun p => (p.2, pyStrip (row.getD p.1 "")))).length := by
    rwa [List.length_map]
  have hget : (headerC.enum.map
      (fun p => (p.2, pyStrip (row.getD p.1 ""))))[i] =
      (headerC.getD i "", pyStrip (row.getD i "")) := by
    rw [List.getElem_map, List.getElem_enum, List.getD_eq_getElem _ _ hi]
  have hmem : (headerC.getD i "", pyStrip (row.getD i "")) ∈
      headerC.enum.map (fun p => (p.2, pyStrip (row.getD p.1 ""))) := by
    rw [← hget]
    exact List.getElem_mem hiL
  rw [hfold]
  exact foldl_dset_mem_nodup _ _ _ _ (by rw [hfst]; exact hn) hmem

/-!  ## The claims  -/

/-- **C2.**  For each upsertable entity kind (aircraft model, engine,
registry entry) and key `k` fresh for the table, upserting two records
with key `k` in sequence leaves exactly one row under `k`; it carries
exactly the second record's non-key column values, the creation timestamp
set by the first upsert and the update timestamp of the second. -/
theorem C2_upsert_overwrite_latest :
    (∀ (t1 t2 : Nat) (db : DB) (r1 r2 : PRec) (k : PyVal),
      r1.get "code" = k → r2.get "code" = k →
      (∀ r ∈ db.aircraft_models, r.key ≠ k) →
      ((upsert_aircraft_model t2 r2
          (upsert_aircraft_model t1 r1 db)).aircraft_models.filter
        (fun r => r.key == k)) = [⟨k, modelDataOf r2, t1, t2⟩]) ∧
    (∀ (t1 t2 : Nat) (db : DB) (r1 r2 : PRec) (k : PyVal),
      r1.get "code" = k → r2.get "code" = k →
      (∀ r ∈ db.engines, r.key ≠ k) →
      ((upsert_engine t2 r2 (upsert_engine t1 r1 db)).engines.filter
        (fun r => r.key == k)) = [⟨k, engineDataOf r2, t1, t2⟩]) ∧
    (∀ (t1 t2 : Nat) (db : DB) (r1 r2 : PRec) (k : PyVal),
      r1.get "n_number" = k → r2.get "n_number" = k →
      (∀ r ∈ db.aircraft_registry, r.key ≠ k) →
      ((upsert_aircraft_registry t2 r2
          (upsert_aircraft_registry t1 r1 db)).aircraft_registry.filter
        (fun r => r.key == k)) = [⟨k, registryDataOf r2, t1, t2⟩]) := by
  refine ⟨?_, ?_, ?_⟩ <;>
    · intro t1 t2 db r1 r2 k hk1 hk2 hfresh
      simp only [upsert_aircraft_model, upsert_engine,
        upsert_aircraft_registry, hk1, hk2]
      exact filter_upsertRow_twice t1 t2 k _ _ _ hfresh

/-- Witness for C2: a model code upserted twice on an empty store keeps
only the second manufacturer, with creation time of the first upsert. -/
theorem C2_upsert_overwrite_latest_w :
    ((upsert_aircraft_model 1
        ⟨[("code", .vStr "X1"), ("manufacturer", .vStr "BETA")], []⟩
        (upsert_aircraft_model 0
          ⟨[("code", .vStr "X1"), ("manufacturer", .vStr "ACME")], []⟩
          emptyDB)).aircraft_models.filter
      (fun r => r.key == .vStr "X1")) =
      [⟨.vStr "X1",
        modelDataOf ⟨[("code", .vStr "X1"), ("manufacturer", .vStr "BETA")], []⟩,
        0, 1⟩] :=
  C2_upsert_overwrite_latest.1 0 1 emptyDB
    ⟨[("code", .vStr "X1"), ("manufacturer", .vStr "ACME")], []⟩
    ⟨[("code", .vStr "X1"), ("manufacturer", .vStr "BETA")], []⟩
    (.vStr "X1") rfl rfl (by simp [emptyDB])

/-- **C3, counterexample.**  The multi-statement text
`select 1; drop table x` passes the guard of `execute_query` and is handed
to the store — it is *not* rejected with a validation error, contrary to
the claim. -/
theorem C3_cex_multistatement_passes_guard :
    query_allowed "select 1; drop table x" = true ∧
    execute_query "select 1; drop table x" = Except.ok () := by
  constructor <;> rfl

/-- **C3, amended.**  The guard is a lexical prefix check only: any
statement whose stripped, uppercased text does not start with `SELECT` is
rejected with the validation error before reaching the store; `SELECT 1`
is accepted, `DELETE FROM registry` is rejected, and the multi-statement
`select 1; drop table x` passes the guard (any rejection of it would come
from the store layer, not from this validation). -/
theorem C3_query_guard_amended :
    (∀ q : String, query_allowed q = false →
      execute_query q = Except.error "Only SELECT queries are allowed") ∧
    (∀ q : String, query_allowed q = true → execute_query q = Except.ok ()) ∧
    execute_query "SELECT 1" = Except.ok () ∧
    execute_query "DELETE FROM registry" =
      Except.error "Only SELECT queries are allowed" ∧
    execute_query "select 1; drop table x" = Except.ok () := by
  refine ⟨?_, ?_, by rfl, by rfl, by rfl⟩
  · intro q hq
    simp [execute_query, hq]
  · intro q hq
    simp [execute_query, hq]

/-- Witness for C3 (amended): the rejection branch at a concrete
statement. -/
theorem C3_query_guard_amended_w :
    execute_query "DROP TABLE registry" =
      Except.error "Only SELECT queries are allowed" :=
  C3_query_guard_amended.1 "DROP TABLE registry" (by rfl)

/-- **C9, counterexample.**  `get_stats` reports no count at all for the
`custom_data` kind: on a store holding one custom record, the stats have
no `custom_data` entry even though the table is non-empty. -/
theorem C9_cex_custom_data_missing_from_stats :
    ((get_stats { emptyDB with
        custom_data := [⟨"f.json", "data", .js "x"⟩] }).find?
      (fun p => p.1 == "custom_data")) = none ∧
    ({ emptyDB with
        custom_data := [⟨"f.json", "data", .js "x"⟩] } : DB).custom_data.length
      = 1 := by
  constructor <;> rfl

/-- **C9, amended.**  `get_stats` returns a count for exactly five entity
kinds — aircraft models, engines, registry entries, dealers and
deregistered aircraft — each equal to that table's current row count;
custom records are not included. -/
theorem C9_stats_five_kinds (db : DB) :
    (get_stats db).find? (fun p => p.1 == "aircraft_models") =
      some ("aircraft_models", db.aircraft_models.length) ∧
    (get_stats db).find? (fun p => p.1 == "engines") =
      some ("engines", db.engines.length) ∧
    (get_stats db).find? (fun p => p.1 == "aircraft_registry") =
      some ("aircraft_registry", db.aircraft_registry.length) ∧
    (get_stats db).find? (fun p => p.1 == "dealers") =
      some ("dealers", db.dealers.length) ∧
    (get_stats db).find? (fun p => p.1 == "aircraft_deregistered") =
      some ("aircraft_deregistered", db.aircraft_deregistered.length) ∧
    ∀ p ∈ get_stats db, p.1 ≠ "custom_data" := by
  refine ⟨rfl, rfl, rfl, rfl, rfl, ?_⟩
  intro p hp
  simp only [get_stats, List.mem_cons, List.not_mem_nil, or_false] at hp
  rcases hp with rfl | rfl | rfl | rfl | rfl
  · show "aircraft_models" ≠ "custom_data"; decide
  · show "engines" ≠ "custom_data"; decide
  · show "aircraft_registry" ≠ "custom_data"; decide
  · show "dealers" ≠ "custom_data"; decide
  · show "aircraft_deregistered" ≠ "custom_data"; decide

/-- **C10.**  In registry and model search a falsy filter value imposes no
constraint: the empty string for a text filter and `0` for
`year_from`/`year_to` behave exactly like an omitted filter, while
`type_aircraft` and `num_engines` — tested against `None` rather than for
truthiness — do constrain the results when passed `0`. -/
theorem C10_falsy_filters :
    (∀ (db : DB) (c s m : Option String) (yf yt ta : Option Int) (l : Nat),
      search_aircraft_registry db (some "") c s m yf yt ta l =
        search_aircraft_registry db none c s m yf yt ta l) ∧
    (∀ (db : DB) (rn s m : Option String) (yf yt ta : Option Int) (l : Nat),
      search_aircraft_registry db rn (some "") s m yf yt ta l =
        search_aircraft_registry db rn none s m yf yt ta l) ∧
    (∀ (db : DB) (rn c m : Option String) (yf yt ta : Option Int) (l : Nat),
      search_aircraft_registry db rn c (some "") m yf yt ta l =
        search_aircraft_registry db rn c none m yf yt ta l) ∧
    (∀ (db : DB) (rn c s m : Option String) (yt ta : Option Int) (l : Nat),
      search_aircraft_registry db rn c s m (some 0) yt ta l =
        search_aircraft_registry db rn c s m none yt ta l) ∧
    (∀ (db : DB) (rn c s m : Option String) (yf ta : Option Int) (l : Nat),
      search_aircraft_registry db rn c s m yf (some 0) ta l =
        search_aircraft_registry db rn c s m yf none ta l) ∧
    (∀ (db : DB) (m : Option String) (ta ne : Option Int) (l : Nat),
      search_aircraft_models db (some "") m ta ne l =
        search_aircraft_models db none m ta ne l) ∧
    (∀ (db : DB) (mf : Option String) (ta ne : Option Int) (l : Nat),
      search_aircraft_models db mf (some "") ta ne l =
        search_aircraft_models db mf none ta ne l) ∧
    (search_aircraft_registry
        { emptyDB with aircraft_registry :=
            [⟨.vStr "N1", registryDataOf ⟨[("type_aircraft", .vInt 1)], []⟩,
              0, 0⟩] }
        none none none none none none (some 0) 100 = [] ∧
      search_aircraft_registry
        { emptyDB with aircraft_registry :=
            [⟨.vStr "N1", registryDataOf ⟨[("type_aircraft", .vInt 1)], []⟩,
              0, 0⟩] }
        none none none none none none none 100 =
        [⟨.vStr "N1", registryDataOf ⟨[("type_aircraft", .vInt 1)], []⟩,
          0, 0⟩]) ∧
    (search_aircraft_models
        { emptyDB with aircraft_models :=
            [⟨.vStr "M1", modelDataOf ⟨[("num_engines", .vInt 2)], []⟩,
              0, 0⟩] }
        none none none (some 0) 100 = [] ∧
      search_aircraft_models
        { emptyDB with aircraft_models :=
            [⟨.vStr "M1", modelDataOf ⟨[("num_engines", .vInt 2)], []⟩,
              0, 0⟩] }
        none none none none 100 =
        [⟨.vStr "M1", modelDataOf ⟨[("num_engines", .vInt 2)], []⟩, 0, 0⟩]) :=
  ⟨fun _ _ _ _ _ _ _ _ => rfl, fun _ _ _ _ _ _ _ _ => rfl,
   fun _ _ _ _ _ _ _ _ => rfl, fun _ _ _ _ _ _ _ _ => rfl,
   fun _ _ _ _ _ _ _ _ => rfl, fun _ _ _ _ _ => rfl, fun _ _ _ _ _ => rfl,
   ⟨by rfl, by rfl⟩, ⟨by rfl, by rfl⟩⟩

/-- **C4, counterexample.**  The stored registry key is *not* normalized at
write time: a record upserted with the lowercase registration id `n123ab`
is present in the store, yet `get_aircraft_by_n_number` — which uppercases
only the query argument — cannot find it even when queried with exactly
the id it was stored under. -/
theorem C4_cex_stored_key_not_normalized :
    ((upsert_aircraft_registry 0 ⟨[("n_number", .vStr "n123ab")], []⟩
        emptyDB).aircraft_registry ≠ []) ∧
    get_aircraft_by_n_number
      (upsert_aircraft_registry 0 ⟨[("n_number", .vStr "n123ab")], []⟩
        emptyDB) "n123ab" = none := by
  constructor
  · exact List.cons_ne_nil _ _
  · rfl

/-- **C4, amended.**  Only the lookup argument is uppercased: a registry
record stored under an uppercase registration id (resp. with an uppercase
transponder hex) is returned by `get_aircraft_by_n_number`
(resp. `get_aircraft_by_mode_s_hex`) for a query in any letter casing;
nothing normalizes the stored key itself. -/
theorem C4_uppercase_lookup_amended :
    (∀ (db : DB) (rec : PRec) (s q : String) (t : Nat),
      rec.get "n_number" = .vStr s → pyUpper s = s →
      (∀ r ∈ db.aircraft_registry, r.key ≠ .vStr s) →
      pyUpper q = s →
      get_aircraft_by_n_number (upsert_aircraft_registry t rec db) q =
        some ⟨.vStr s, registryDataOf rec, t, t⟩) ∧
    (∀ (db : DB) (rec : PRec) (hs q : String) (t : Nat),
      rec.get "mode_s_code_hex" = .vStr hs →
      (∀ r ∈ db.aircraft_registry, r.key ≠ rec.get "n_number") →
      (∀ r ∈ db.aircraft_registry,
        sqlEq r.data.mode_s_code_hex (.vStr hs) = false) →
      pyUpper q = hs →
      get_aircraft_by_mode_s_hex (upsert_aircraft_registry t rec db) q =
        some ⟨rec.get "n_number", registryDataOf rec, t, t⟩) := by
  constructor
  · intro db rec s q t hk hsu hfresh hq
    show (upsertRow t (rec.get "n_number") (registryDataOf rec)
        db.aircraft_registry).find?
        (fun r => sqlEq r.key (.vStr (pyUpper q))) = _
    rw [hk, upsertRow_fresh t _ _ _ hfresh, hq, List.find?_append]
    have h1 : db.aircraft_registry.find?
        (fun r => sqlEq r.key (.vStr s)) = none := by
      apply List.find?_eq_none.mpr
      intro r hr hp
      have hkey : r.key = .vStr s := by
        by_cases hcase : r.key = .vStr s
        · exact hcase
        · rw [show sqlEq r.key (.vStr s) = false by simp [sqlEq, hcase]] at hp
          cases hp
      exact hfresh r hr hkey
    rw [h1]
    simp [List.find?_cons, sqlEq]
  · intro db rec hs q t hk hfreshk hfreshm hq
    show (upsertRow t (rec.get "n_number") (registryDataOf rec)
        db.aircraft_registry).find?
        (fun r => sqlEq r.data.mode_s_code_hex (.vStr (pyUpper q))) = _
    rw [upsertRow_fresh t _ _ _ hfreshk, hq, List.find?_append]
    have h1 : db.aircraft_registry.find?
        (fun r => sqlEq r.data.mode_s_code_hex (.vStr hs)) = none := by
      apply List.find?_eq_none.mpr
      intro r hr hp
      rw [hfreshm r hr] at hp
      cases hp
    rw [h1]
    have hnew : (registryDataOf rec).mode_s_code_hex = .vStr hs := hk
    simp [List.find?_cons, sqlEq, hnew]

/-- Witness for C4 (amended): a record stored under `N1` is found by the
lowercase query `n1`. -/
theorem C4_uppercase_lookup_amended_w :
    get_aircraft_by_n_number
      (upsert_aircraft_registry 4 ⟨[("n_number", .vStr "N1")], []⟩ emptyDB)
      "n1" =
      some ⟨.vStr "N1", registryDataOf ⟨[("n_number", .vStr "N1")], []⟩,
        4, 4⟩ :=
  C4_uppercase_lookup_amended.1 emptyDB ⟨[("n_number", .vStr "N1")], []⟩
    "N1" "n1" 4 rfl rfl (by simp [emptyDB]) rfl

/-- **C8.**  A registry entry found by registration id or transponder
address is returned by the joined lookups even when its model code matches
no aircraft model and its engine code matches no engine: the twelve joined
columns are then all `NULL` and no error is raised. -/
theorem C8_left_join_null_fields :
    (∀ (db : DB) (q : String) (r : TRow RegistryData),
      db.aircraft_registry.find?
        (fun x => sqlEq x.key (.vStr (pyUpper q))) = some r →
      (∀ m ∈ db.aircraft_models, sqlEq r.data.mfr_mdl_code m.key = false) →
      (∀ e ∈ db.engines, sqlEq r.data.eng_mfr_mdl e.key = false) →
      get_aircraft_with_model_info db q =
        some { reg := r, model_manufacturer := .vNone, model_name := .vNone
               model_type_aircraft := .vNone, model_type_engine := .vNone
               model_num_engines := .vNone, model_num_seats := .vNone
               model_weight_class := .vNone, model_speed := .vNone
               engine_manufacturer := .vNone, engine_model := .vNone
               engine_horsepower := .vNone, engine_thrust := .vNone }) ∧
    (∀ (db : DB) (hx : String) (r : TRow RegistryData),
      db.aircraft_registry.find?
        (fun x => sqlEq x.data.mode_s_code_hex (.vStr (pyUpper hx))) =
        some r →
      (∀ m ∈ db.aircraft_models, sqlEq r.data.mfr_mdl_code m.key = false) →
      (∀ e ∈ db.engines, sqlEq r.data.eng_mfr_mdl e.key = false) →
      get_aircraft_by_mode_s_with_details db hx =
        some { reg := r, model_manufacturer := .vNone, model_name := .vNone
               model_type_aircraft := .vNone, model_type_engine := .vNone
               model_num_engines := .vNone, model_num_seats := .vNone
               model_weight_class := .vNone, model_speed := .vNone
               engine_manufacturer := .vNone, engine_model := .vNone
               engine_horsepower := .vNone, engine_thrust := .vNone }) := by
  constructor
  · intro db q r hfind hm he
    have h1 : db.aircraft_models.find?
        (fun m => sqlEq r.data.mfr_mdl_code m.key) = none :=
      List.find?_eq_none.mpr (fun m hmm => by simp [hm m hmm])
    have h2 : db.engines.find?
        (fun e => sqlEq r.data.eng_mfr_mdl e.key) = none :=
      List.find?_eq_none.mpr (fun e hee => by simp [he e hee])
    unfold get_aircraft_with_model_info
    rw [hfind]
    simp [joinRow, h1, h2]
  · intro db hx r hfind hm he
    have h1 : db.aircraft_models.find?
        (fun m => sqlEq r.data.mfr_mdl_code m.key) = none :=
      List.find?_eq_none.mpr (fun m hmm => by simp [hm m hmm])
    have h2 : db.engines.find?
        (fun e => sqlEq r.data.eng_mfr_mdl e.key) = none :=
      List.find?_eq_none.mpr (fun e hee => by simp [he e hee])
    unfold get_aircraft_by_mode_s_with_details
    rw [hfind]
    simp [joinRow, h1, h2]

/-- Witness for C8: a registry row whose model and engine codes resolve to
nothing still returns from the joined lookup, with all joined fields
`NULL`. -/
theorem C8_left_join_null_fields_w :
    get_aircraft_with_model_info
      { emptyDB with aircraft_registry :=
          [⟨.vStr "N9", registryDataOf
            ⟨[("n_number", .vStr "N9"), ("mfr_mdl_code", .vStr "NOPE"),
              ("eng_mfr_mdl", .vStr "NADA")], []⟩, 0, 0⟩] } "N9" =
      some { reg := ⟨.vStr "N9", registryDataOf
              ⟨[("n_number", .vStr "N9"), ("mfr_mdl_code", .vStr "NOPE"),
                ("eng_mfr_mdl", .vStr "NADA")], []⟩, 0, 0⟩
             model_manufacturer := .vNone, model_name := .vNone
             model_type_aircraft := .vNone, model_type_engine := .vNone
             model_num_engines := .vNone, model_num_seats := .vNone
             model_weight_class := .vNone, model_speed := .vNone
             engine_manufacturer := .vNone, engine_model := .vNone
             engine_horsepower := .vNone, engine_thrust := .vNone } :=
  C8_left_join_null_fields.1
    { emptyDB with aircraft_registry :=
        [⟨.vStr "N9", registryDataOf
          ⟨[("n_number", .vStr "N9"), ("mfr_mdl_code", .vStr "NOPE"),
            ("eng_mfr_mdl", .vStr "NADA")], []⟩, 0, 0⟩] }
    "N9" _ (by rfl) (by simp [emptyDB]) (by simp [emptyDB])

/-- **C7, counterexample.**  The stored `_raw` dict keeps *stripped*
header names and cell values, not the originals: parsing a row whose
unmapped `NOTE` column holds `" x "` stores `("NOTE", "x")`, and the
original column/value pair `("NOTE", " x ")` is nowhere in the stored raw
blob. -/
theorem C7_cex_raw_values_stripped :
    parse_faa_csv ⟨["CODE", "NOTE"], [["A3", " x "]]⟩ ACFTREF_COLUMNS =
      [⟨[("code", .vStr "A3")], [("CODE", "A3"), ("NOTE", "x")]⟩] ∧
    ("NOTE", " x ") ∉
      (⟨[("code", .vStr "A3")],
        [("CODE", "A3"), ("NOTE", "x")]⟩ : PRec).raw := by
  constructor
  · rfl
  · decide

/-- **C7, amended.**  For every row parsed by the fixed-mapping parser
(and upserted — the upserts store the whole record as `raw_json`), the
stored `_raw` dict contains one entry per header column regardless of the
column mapping: under a duplicate-free stripped header, column `i`'s
stripped name maps to the stripped cell text (the empty string when the
row is shorter), and the raw dict is identical whatever the mapping
resolves. -/
theorem C7_raw_preservation_amended :
    (∀ (f : CsvFile) (mapping : List (String × String)) (row : List String),
      row ∈ f.rows → blankRow row = false →
      parseRow (f.header.map (fun h => pyStrip h))
        (colIndices (f.header.map (fun h => pyStrip h)) mapping) row ∈
        parse_faa_csv f mapping) ∧
    (∀ (headerC : List String) (ci : List (Nat × String))
       (row : List String) (i : Nat),
      headerC.Nodup → i < headerC.length →
      dfind (parseRow headerC ci row).raw (headerC.getD i "") =
        some (pyStrip (row.getD i ""))) ∧
    (∀ (headerC : List String) (ci ci2 : List (Nat × String))
       (row : List String),
      (parseRow headerC ci row).raw = (parseRow headerC ci2 row).raw) ∧
    (∀ rec : PRec, (modelDataOf rec).raw_json = rec ∧
      (engineDataOf rec).raw_json = rec ∧
      (registryDataOf rec).raw_json = rec) := by
  refine ⟨?_, ?_, fun _ _ _ _ => rfl, fun _ => ⟨rfl, rfl, rfl⟩⟩
  · intro f mapping row hrow hblank
    unfold parse_faa_csv
    apply List.mem_map.mpr
    refine ⟨row, ?_, rfl⟩
    rw [List.mem_filter]
    exact ⟨hrow, by rw [hblank]; rfl⟩
  · intro headerC ci row i hn hi
    exact dfind_rowRaw headerC row i hn hi

/-- Witness for C7 (amended): the raw dict of a parsed row keeps the
unmapped second column under its stripped name with its stripped value. -/
theorem C7_raw_preservation_amended_w :
    dfind (parseRow ["CODE", "NOTE"] (colIndices ["CODE", "NOTE"]
        ACFTREF_COLUMNS) ["A3", " x "]).raw (["CODE", "NOTE"].getD 1 "") =
      some (pyStrip " x ") :=
  C7_raw_preservation_amended.2.1 ["CODE", "NOTE"]
    (colIndices ["CODE", "NOTE"] ACFTREF_COLUMNS) ["A3", " x "] 1
    (by decide) (by decide)

/-- **C6, counterexample.**  A record whose primary key is *present* but
falsy is silently dropped: the ACFTREF row with `CODE` text `"0"` parses
to the integer key `0` (not `None`), yet it is not upserted, the count
stays `0` and the error counter stays `0` — contradicting "every record
whose primary key is present is upserted". -/
theorem C6_cex_zero_key_dropped :
    ((parse_faa_csv ⟨["CODE", "MFR"], [["0", "ACME"]]⟩
        ACFTREF_COLUMNS).map (fun r => r.get "code") = [.vInt 0]) ∧
    (.vInt 0 : PyVal) ≠ .vNone ∧
    ingest_acftref 7 noFail ⟨["CODE", "MFR"], [["0", "ACME"]]⟩ emptyDB =
      (emptyDB, 0, 0) := by
  refine ⟨by rfl, by decide, by rfl⟩

/-- **C6, amended.**  In the FAA ingest loops a record whose parsed
primary key is falsy (absent, empty — both parse to `None` — or the
number `0`) is dropped silently: dropping all such records first changes
nothing, not the store, the count or the error counter.  Batches compose:
an upsert failure on one record only increments the error counter and the
loop continues with the remaining records; the count is the number of
truthy-key records whose upsert succeeded and the error counter the
number of truthy-key records whose upsert raised, as reported by
`ingest_acftref` and `ingest_master`. -/
theorem C6_missing_key_drop_amended :
    (∀ (α : Type) (t : Nat) (kn : String) (dataOf : PRec → α)
       (sf : PRec → Bool) (recs : List PRec) (tbl : List (TRow α)),
      ingestFold t kn dataOf sf
          (recs.filter (fun r => truthy (r.get kn))) tbl =
        ingestFold t kn dataOf sf recs tbl) ∧
    (∀ (α : Type) (t : Nat) (kn : String) (dataOf : PRec → α)
       (sf : PRec → Bool) (xs ys : List PRec) (tbl : List (TRow α)),
      ingestFold t kn dataOf sf (xs ++ ys) tbl =
        ⟨(ingestFold t kn dataOf sf ys
            (ingestFold t kn dataOf sf xs tbl).tbl).tbl,
         (ingestFold t kn dataOf sf xs tbl).count +
           (ingestFold t kn dataOf sf ys
             (ingestFold t kn dataOf sf xs tbl).tbl).count,
         (ingestFold t kn dataOf sf xs tbl).errs +
           (ingestFold t kn dataOf sf ys
             (ingestFold t kn dataOf sf xs tbl).tbl).errs⟩) ∧
    (∀ (t : Nat) (sf : PRec → Bool) (f : CsvFile) (db : DB),
      (ingest_acftref t sf f db).2.1 =
        (parse_faa_csv f ACFTREF_COLUMNS).countP (effRec "code" sf) ∧
      (ingest_acftref t sf f db).2.2 =
        (parse_faa_csv f ACFTREF_COLUMNS).countP
          (fun r => truthy (r.get "code") && sf r)) ∧
    (∀ (t : Nat) (sf : PRec → Bool) (f : CsvFile) (db : DB),
      (ingest_master t sf f db).2.1 =
        (parse_faa_csv f MASTER_COLUMNS).countP (effRec "n_number" sf) ∧
      (ingest_master t sf f db).2.2 =
        (parse_faa_csv f MASTER_COLUMNS).countP
          (fun r => truthy (r.get "n_number") && sf r)) := by
  refine ⟨?_, ?_, ?_, ?_⟩
  · intro α t kn dataOf sf recs tbl
    exact ingestFold_filter_truthy t kn dataOf sf recs tbl
  · intro α t kn dataOf sf xs ys tbl
    exact ingestFold_append t kn dataOf sf xs ys tbl
  · intro t sf f db
    constructor
    · show (ingestFold t "code" modelDataOf sf
        (parse_faa_csv f ACFTREF_COLUMNS) db.aircraft_models).count = _
      rw [ingestFold_parts]
    · show (ingestFold t "code" modelDataOf sf
        (parse_faa_csv f ACFTREF_COLUMNS) db.aircraft_models).errs = _
      rw [ingestFold_parts]
  · intro t sf f db
    constructor
    · show (ingestFold t "n_number" registryDataOf sf
        (parse_faa_csv f MASTER_COLUMNS) db.aircraft_registry).count = _
      rw [ingestFold_parts]
    · show (ingestFold t "n_number" registryDataOf sf
        (parse_faa_csv f MASTER_COLUMNS) db.aircraft_registry).errs = _
      rw [ingestFold_parts]

/-- **C5, counterexample.**  A read failure of an *authority* file is not
caught: a directory whose `ACFTREF.txt` raises on read makes the whole
`ingest_directory` call raise — the failure is neither recorded in the
skipped list nor isolated, contradicting "the only fatal failure is
directory-not-found". -/
theorem C5_cex_corrupt_authority_raises :
    ingest_directory 0 noFail
      (some ⟨some (.error "unreadable file"), none, none, []⟩) emptyDB =
      .raised "unreadable file" emptyDB := rfl

/-- **C5, amended.**  Per-file error isolation holds for *secondary* files
only: when no authority slot raises on read, `ingest_directory` always
returns a normal summary, and every supported-format secondary file whose
read fails is recorded as `(name, error)` in `files_skipped` while the
remaining files are still processed.  A directory with one corrupt
secondary file and two valid authority files ingests both authority files
with their counts and reports only the corrupt file as skipped.  (A read
failure of one of the three authority files, by contrast, propagates out
of the call — see the counterexample.) -/
theorem C5_error_isolation_amended :
    (∀ (t : Nat) (sf : PRec → Bool) (d : IngestDir) (db : DB),
      goodAuthority d →
      ∃ s db', ingest_directory t sf (some d) db = .ok s db' ∧
        ∀ f ∈ d.others, ∀ e : String,
          (!(f.name == "ACFTREF.txt") && !(f.name == "ENGINE.txt") &&
            !(f.name == "MASTER.txt")) = true →
          f.content = .error e →
          (pyLower f.suffix = ".xlsx" ∨ pyLower f.suffix = ".json" ∨
            pyLower f.suffix = ".csv") →
          (f.name, e) ∈ s.files_skipped) ∧
    (∃ s db', ingest_directory 3 noFail
        (some ⟨some (.ok ⟨["CODE"], [["X1"]]⟩),
          some (.ok ⟨["CODE"], [["E1"]]⟩), none,
          [⟨"bad.xlsx", "bad", ".xlsx", .error "corrupt file"⟩]⟩)
        emptyDB = .ok s db' ∧
      s.files_processed = ["ACFTREF.txt", "ENGINE.txt"] ∧
      s.files_skipped = [("bad.xlsx", "corrupt file")] ∧
      s.stats = [("acftref", [("aircraft_models", 1)]),
        ("engine", [("engines", 1)])] ∧
      s.database_stats = [("aircraft_models", 1), ("engines", 1),
        ("aircraft_registry", 0), ("dealers", 0),
        ("aircraft_deregistered", 0)]) := by
  constructor
  · intro t sf d db hga
    obtain ⟨oa, oe, om, others⟩ := d
    obtain ⟨ha, he, hm⟩ := hga
    have hA : oa = none ∨ ∃ fA, oa = some (.ok fA) := by
      cases oa with
      | none => exact Or.inl rfl
      | some x =>
        cases x with
        | ok fA => exact Or.inr ⟨fA, rfl⟩
        | error e => exact absurd rfl (ha e)
    have hE : oe = none ∨ ∃ fE, oe = some (.ok fE) := by
      cases oe with
      | none => exact Or.inl rfl
      | some x =>
        cases x with
        | ok fE => exact Or.inr ⟨fE, rfl⟩
        | error e => exact absurd rfl (he e)
    have hM : om = none ∨ ∃ fM, om = some (.ok fM) := by
      cases om with
      | none => exact Or.inl rfl
      | some x =>
        cases x with
        | ok fM => exact Or.inr ⟨fM, rfl⟩
        | error e => exact absurd rfl (hm e)
    rcases hA with rfl | ⟨fA, rfl⟩ <;> rcases hE with rfl | ⟨fE, rfl⟩ <;>
      rcases hM with rfl | ⟨fM, rfl⟩ <;>
      · refine ⟨_, _, rfl, ?_⟩
        intro f hf e hname hcontent hsfx
        exact othersPhase_skip_mem _ _ _ _ _ f e
          (List.mem_filter.mpr ⟨hf, hname⟩)
          (processOther_error_content f e hcontent hsfx)
  · exact ⟨_, _, rfl, rfl, rfl, rfl, rfl⟩

/-- Witness for C5 (amended): a directory with healthy authority slots
(here: all absent) yields a normal summary. -/
theorem C5_error_isolation_amended_w :
    ∃ s db', ingest_directory 0 noFail
        (some ⟨none, none, none, []⟩) emptyDB = .ok s db' ∧
      ∀ f ∈ ([] : List OtherFile), ∀ e : String,
        (!(f.name == "ACFTREF.txt") && !(f.name == "ENGINE.txt") &&
          !(f.name == "MASTER.txt")) = true →
        f.content = .error e →
        (pyLower f.suffix = ".xlsx" ∨ pyLower f.suffix = ".json" ∨
          pyLower f.suffix = ".csv") →
        (f.name, e) ∈ s.files_skipped :=
  C5_error_isolation_amended.1 0 noFail ⟨none, none, none, []⟩ emptyDB
    (by refine ⟨?_, ?_, ?_⟩ <;> intro e h <;> cases h)

/-- **C1.**  Ingesting the same authority file (model reference, engine
reference, or registry) twice in sequence through `ingest_directory`
leaves the store with the same rows as ingesting it once — same keys, same
column values, same creation timestamps, in the same order (only the
volatile `updated_at` is refreshed, as the upsert contract dictates) — and
the same row counts; both runs return normal summaries with equal counts
and empty skip lists (conflicts update in place, so no duplicate-key error
is ever raised), and the key-uniqueness invariant is preserved, so no
duplicate rows exist. -/
theorem C1_ingest_twice_idempotent (k : FaaKind) (f : CsvFile) (db : DB)
    (t1 t2 : Nat) (hwf : dbKeysNodup db) :
    ∃ s1 db1 s2 db2,
      ingest_directory t1 noFail (some (mkFaaDir k f)) db = .ok s1 db1 ∧
      ingest_directory t2 noFail (some (mkFaaDir k f)) db1 = .ok s2 db2 ∧
      dbContent db2 = dbContent db1 ∧
      get_stats db2 = get_stats db1 ∧
      s2.stats = s1.stats ∧
      s2.files_processed = s1.files_processed ∧
      s1.files_skipped = [] ∧ s2.files_skipped = [] ∧
      dbKeysNodup db1 ∧ dbKeysNodup db2 := by
  obtain ⟨hnm, hne, hnr⟩ := hwf
  cases k with
  | acftref =>
    have h1 : (ingest_acftref t1 noFail f db).1.aircraft_models =
        ingestTbl t1 "code" modelDataOf noFail
          (parse_faa_csv f ACFTREF_COLUMNS) db.aircraft_models := by
      show (ingestFold t1 "code" modelDataOf noFail
        (parse_faa_csv f ACFTREF_COLUMNS) db.aircraft_models).tbl = _
      rw [ingestFold_parts]
    have h2 : (ingest_acftref t2 noFail f
          (ingest_acftref t1 noFail f db).1).1.aircraft_models =
        ingestTbl t2 "code" modelDataOf noFail
          (parse_faa_csv f ACFTREF_COLUMNS)
          (ingest_acftref t1 noFail f db).1.aircraft_models := by
      show (ingestFold t2 "code" modelDataOf noFail
        (parse_faa_csv f ACFTREF_COLUMNS)
        (ingest_acftref t1 noFail f db).1.aircraft_models).tbl = _
      rw [ingestFold_parts]
    have hidem : contentList (ingest_acftref t2 noFail f
          (ingest_acftref t1 noFail f db).1).1.aircraft_models =
        contentList (ingest_acftref t1 noFail f db).1.aircraft_models := by
      rw [h2, h1]
      exact ingestTbl_idem t1 t2 _ _ _ _ _ hnm
    have hlen : (ingest_acftref t2 noFail f
          (ingest_acftref t1 noFail f db).1).1.aircraft_models.length =
        (ingest_acftref t1 noFail f db).1.aircraft_models.length := by
      have hc := congrArg List.length hidem
      simpa [contentList] using hc
    have hcnt : (ingest_acftref t2 noFail f
          (ingest_acftref t1 noFail f db).1).2.1 =
        (ingest_acftref t1 noFail f db).2.1 := by
      show (ingestFold t2 "code" modelDataOf noFail
        (parse_faa_csv f ACFTREF_COLUMNS)
        (ingest_acftref t1 noFail f db).1.aircraft_models).count =
        (ingestFold t1 "code" modelDataOf noFail
          (parse_faa_csv f ACFTREF_COLUMNS) db.aircraft_models).count
      rw [ingestFold_parts, ingestFold_parts]
    refine ⟨⟨["ACFTREF.txt"], [],
        [("acftref", [("aircraft_models",
          (ingest_acftref t1 noFail f db).2.1)])],
        get_stats (ingest_acftref t1 noFail f db).1⟩,
      (ingest_acftref t1 noFail f db).1,
      ⟨["ACFTREF.txt"], [],
        [("acftref", [("aircraft_models",
          (ingest_acftref t2 noFail f
            (ingest_acftref t1 noFail f db).1).2.1)])],
        get_stats (ingest_acftref t2 noFail f
          (ingest_acftref t1 noFail f db).1).1⟩,
      (ingest_acftref t2 noFail f (ingest_acftref t1 noFail f db).1).1,
      rfl, rfl, ?_, ?_, ?_, rfl, rfl, rfl, ?_, ?_⟩
    · simp only [dbContent]
      rw [hidem]
      rfl
    · simp only [get_stats]
      rw [hlen]
      rfl
    · rw [hcnt]
    · refine ⟨?_, hne, hnr⟩
      rw [h1]
      exact nodup_keyList_ingestTbl _ _ _ _ _ _ hnm
    · refine ⟨?_, hne, hnr⟩
      rw [h2, h1]
      exact nodup_keyList_ingestTbl _ _ _ _ _ _
        (nodup_keyList_ingestTbl _ _ _ _ _ _ hnm)
  | engine =>
    have h1 : (ingest_engines t1 noFail f db).1.engines =
        ingestTbl t1 "code" engineDataOf noFail
          (parse_faa_csv f ENGINE_COLUMNS) db.engines := by
      show (ingestFold t1 "code" engineDataOf noFail
        (parse_faa_csv f ENGINE_COLUMNS) db.engines).tbl = _
      rw [ingestFold_parts]
    have h2 : (ingest_engines t2 noFail f
          (ingest_engines t1 noFail f db).1).1.engines =
        ingestTbl t2 "code" engineDataOf noFail
          (parse_faa_csv f ENGINE_COLUMNS)
          (ingest_engines t1 noFail f db).1.engines := by
      show (ingestFold t2 "code" engineDataOf noFail
        (parse_faa_csv f ENGINE_COLUMNS)
        (ingest_engines t1 noFail f db).1.engines).tbl = _
      rw [ingestFold_parts]
    have hidem : contentList (ingest_engines t2 noFail f
          (ingest_engines t1 noFail f db).1).1.engines =
        contentList (ingest_engines t1 noFail f db).1.engines := by
      rw [h2, h1]
      exact ingestTbl_idem t1 t2 _ _ _ _ _ hne
    have hlen : (ingest_engines t2 noFail f
          (ingest_engines t1 noFail f db).1).1.engines.length =
        (ingest_engines t1 noFail f db).1.engines.length := by
      have hc := congrArg List.length hidem
      simpa [contentList] using hc
    have hcnt : (ingest_engines t2 noFail f
          (ingest_engines t1 noFail f db).1).2.1 =
        (ingest_engines t1 noFail f db).2.1 := by
      show (ingestFold t2 "code" engineDataOf noFail
        (parse_faa_csv f ENGINE_COLUMNS)
        (ingest_engines t1 noFail f db).1.engines).count =
        (ingestFold t1 "code" engineDataOf noFail
          (parse_faa_csv f ENGINE_COLUMNS) db.engines).count
      rw [ingestFold_parts, ingestFold_parts]
    refine ⟨⟨["ENGINE.txt"], [],
        [("engine", [("engines", (ingest_engines t1 noFail f db).2.1)])],
        get_stats (ingest_engines t1 noFail f db).1⟩,
      (ingest_engines t1 noFail f db).1,
      ⟨["ENGINE.txt"], [],
        [("engine", [("engines",
          (ingest_engines t2 noFail f
            (ingest_engines t1 noFail f db).1).2.1)])],
        get_stats (ingest_engines t2 noFail f
          (ingest_engines t1 noFail f db).1).1⟩,
      (ingest_engines t2 noFail f (ingest_engines t1 noFail f db).1).1,
      rfl, rfl, ?_, ?_, ?_, rfl, rfl, rfl, ?_, ?_⟩
    · simp only [dbContent]
      rw [hidem]
      rfl
    · simp only [get_stats]
      rw [hlen]
      rfl
    · rw [hcnt]
    · refine ⟨hnm, ?_, hnr⟩
      rw [h1]
      exact nodup_keyList_ingestTbl _ _ _ _ _ _ hne
    · refine ⟨hnm, ?_, hnr⟩
      rw [h2, h1]
      exact nodup_keyList_ingestTbl _ _ _ _ _ _
        (nodup_keyList_ingestTbl _ _ _ _ _ _ hne)
  | master =>
    have h1 : (ingest_master t1 noFail f db).1.aircraft_registry =
        ingestTbl t1 "n_number" registryDataOf noFail
          (parse_faa_csv f MASTER_COLUMNS) db.aircraft_registry := by
      show (ingestFold t1 "n_number" registryDataOf noFail
        (parse_faa_csv f MASTER_COLUMNS) db.aircraft_registry).tbl = _
      rw [ingestFold_parts]
    have h2 : (ingest_master t2 noFail f
          (ingest_master t1 noFail f db).1).1.aircraft_registry =
        ingestTbl t2 "n_number" registryDataOf noFail
          (parse_faa_csv f MASTER_COLUMNS)
          (ingest_master t1 noFail f db).1.aircraft_registry := by
      show (ingestFold t2 "n_number" registryDataOf noFail
        (parse_faa_csv f MASTER_COLUMNS)
        (ingest_master t1 noFail f db).1.aircraft_registry).tbl = _
      rw [ingestFold_parts]
    have hidem : contentList (ingest_master t2 noFail f
          (ingest_master t1 noFail f db).1).1.aircraft_registry =
        contentList (ingest_master t1 noFail f db).1.aircraft_registry := by
      rw [h2, h1]
      exact ingestTbl_idem t1 t2 _ _ _ _ _ hnr
    have hlen : (ingest_master t2 noFail f
          (ingest_master t1 noFail f db).1).1.aircraft_registry.length =
        (ingest_master t1 noFail f db).1.aircraft_registry.length := by
      have hc := congrArg List.length hidem
      simpa [contentList] using hc
    have hcnt : (ingest_master t2 noFail f
          (ingest_master t1 noFail f db).1).2.1 =
        (ingest_master t1 noFail f db).2.1 := by
      show (ingestFold t2 "n_number" registryDataOf noFail
        (parse_faa_csv f MASTER_COLUMNS)
        (ingest_master t1 noFail f db).1.aircraft_registry).count =
        (ingestFold t1 "n_number" registryDataOf noFail
          (parse_faa_csv f MASTER_COLUMNS) db.aircraft_registry).count
      rw [ingestFold_parts, ingestFold_parts]
    refine ⟨⟨["MASTER.txt"], [],
        [("master", [("aircraft_registry",
          (ingest_master t1 noFail f db).2.1)])],
        get_stats (ingest_master t1 noFail f db).1⟩,
      (ingest_master t1 noFail f db).1,
      ⟨["MASTER.txt"], [],
        [("master", [("aircraft_registry",
          (ingest_master t2 noFail f
            (ingest_master t1 noFail f db).1).2.1)])],
        get_stats (ingest_master t2 noFail f
          (ingest_master t1 noFail f db).1).1⟩,
      (ingest_master t2 noFail f (ingest_master t1 noFail f db).1).1,
      rfl, rfl, ?_, ?_, ?_, rfl, rfl, rfl, ?_, ?_⟩
    · simp only [dbContent]
      rw [hidem]
      rfl
    · simp only [get_stats]
      rw [hlen]
      rfl
    · rw [hcnt]
    · refine ⟨hnm, hne, ?_⟩
      rw [h1]
      exact nodup_keyList_ingestTbl _ _ _ _ _ _ hnr
    · refine ⟨hnm, hne, ?_⟩
      rw [h2, h1]
      exact nodup_keyList_ingestTbl _ _ _ _ _ _
        (nodup_keyList_ingestTbl _ _ _ _ _ _ hnr)

/-- Witness for C1: a one-row model-reference file ingested twice into an
empty store. -/
theorem C1_ingest_twice_idempotent_w :
    ∃ s1 db1 s2 db2,
      ingest_directory 0 noFail
        (some (mkFaaDir .acftref ⟨["CODE"], [["X1"]]⟩)) emptyDB =
        .ok s1 db1 ∧
      ingest_directory 1 noFail
        (some (mkFaaDir .acftref ⟨["CODE"], [["X1"]]⟩)) db1 = .ok s2 db2 ∧
      dbContent db2 = dbContent db1 ∧
      get_stats db2 = get_stats db1 ∧
      s2.stats = s1.stats ∧
      s2.files_processed = s1.files_processed ∧
      s1.files_skipped = [] ∧ s2.files_skipped = [] ∧
      dbKeysNodup db1 ∧ dbKeysNodup db2 :=
  C1_ingest_twice_idempotent .acftref ⟨["CODE"], [["X1"]]⟩ emptyDB 0 1
    (by refine ⟨?_, ?_, ?_⟩ <;> exact List.nodup_nil)

end AircraftDB
